import Mathlib

set_option linter.unusedVariables false
set_option autoImplicit false

/-!
Verification development for `viewcodexlog.py`, a viewer that renders a
JSONL conversation log as HTML and mines it for code-upload tool calls.

The Python source is shallowly embedded here:

* Python/JSON values are the inductive type `Json` (JSON numbers are
  modelled as integers; no claim depends on float formatting).
* `json.loads` and `json.dumps` are external library calls; they are
  modelled as explicit function parameters (`d` for the decoder, which
  returns the decode-error message on failure, and `dp` for the dumper),
  so every theorem holds for an arbitrary decoder/dumper.
* Fallible Python operations are embedded in `Except String`:
  `html.escape` raises `AttributeError` on non-strings, `.get` raises
  `AttributeError` on non-dicts, and iteration raises `TypeError` on
  non-iterables; the embedding returns `.error` in exactly those cases.
* The external `git` binary is a black-box oracle: `run_git_command` is
  modelled as a small state machine over an abstract repository, with a
  parameter `g` choosing which invocations report a non-zero status
  (returning that invocation's stderr text).
-/

/-- A Python value as produced by `json.loads`: the untyped payload tree
of the log records. -/
inductive Json where
  | null : Json
  | bool (b : Bool) : Json
  | num (n : Int) : Json
  | str (s : String) : Json
  | arr (elems : List Json) : Json
  | obj (fields : List (String × Json)) : Json
  deriving Repr

/-- The apostrophe character, used by Python `repr` and `html.escape`. -/
def aposChar : Char := Char.ofNat 39

/-- The double-quote character. -/
def quotChar : Char := Char.ofNat 34

/-- Python truthiness (`bool(x)`) of a JSON-shaped value. -/
def truthy : Json → Bool
  | .null => false
  | .bool b => b
  | .num n => n != 0
  | .str s => s != ""
  | .arr xs => !xs.isEmpty
  | .obj kvs => !kvs.isEmpty

/-- Python `x or y` on JSON-shaped values. -/
def pyOr (a b : Json) : Json := if truthy a then a else b

/-- One character of Python `repr` of a string quoted with `q`. -/
def reprEscChar (q c : Char) : List Char :=
  if c = '\\' then ['\\', '\\']
  else if c = q then ['\\', q]
  else if c = '\n' then ['\\', 'n']
  else if c = '\r' then ['\\', 'r']
  else if c = '\t' then ['\\', 't']
  else if c.toNat < 32 ∨ c.toNat = 127 then
    ['\\', 'x', (Nat.digitChar ((c.toNat / 16) % 16)), (Nat.digitChar (c.toNat % 16))]
  else [c]

/-- Python `repr` of a string: quotes with an apostrophe unless the string
contains one and no double quote, escaping backslashes, the quote
character, and control characters. -/
def pyReprStr (s : String) : String :=
  let q : Char := if s.data.contains aposChar ∧ ¬ s.data.contains quotChar then quotChar else aposChar
  String.mk (q :: (s.data.flatMap (reprEscChar q) ++ [q]))

mutual
/-- Python `repr` of a JSON-shaped value (used by `str` on containers). -/
def pyRepr : Json → String
  | .null => "None"
  | .bool true => "True"
  | .bool false => "False"
  | .num n => toString n
  | .str s => pyReprStr s
  | .arr xs => "[" ++ String.intercalate ", " (pyReprList xs) ++ "]"
  | .obj kvs => "\x7b" ++ String.intercalate ", " (pyReprFields kvs) ++ "\x7d"

def pyReprList : List Json → List String
  | [] => []
  | x :: xs => pyRepr x :: pyReprList xs

def pyReprFields : List (String × Json) → List String
  | [] => []
  | (k, v) :: kvs => (pyReprStr k ++ ": " ++ pyRepr v) :: pyReprFields kvs
end

/-- Python `str(x)` of a JSON-shaped value: the string itself for strings,
`repr`-style rendering otherwise. -/
def pyStr : Json → String
  | .str s => s
  | v => pyRepr v

/-- One character of `html.escape` (with its default `quote=True`). -/
def escHtmlChar (c : Char) : String :=
  if c = '&' then "&amp;"
  else if c = '<' then "&lt;"
  else if c = '>' then "&gt;"
  else if c = quotChar then "&quot;"
  else if c = aposChar then "&#x27;"
  else String.mk [c]

/-- Concatenation of a list of strings (Python `"".join`). -/
def strJoin : List String → String
  | [] => ""
  | s :: l => s ++ strJoin l

/-- `html.escape` on a string (default `quote=True`). -/
def htmlEscape (s : String) : String :=
  strJoin (s.data.map escHtmlChar)

/-- `html.escape` on an arbitrary value: Python raises `AttributeError`
when the argument is not a string. -/
def pyEscape : Json → Except String String
  | .str s => .ok (htmlEscape s)
  | _ => .error "AttributeError"

/-- First binding of a key in a decoded JSON object (Python dicts parsed
from JSON have unique keys). -/
def objGet? (kvs : List (String × Json)) (k : String) : Option Json :=
  (kvs.find? (fun kv => kv.1 = k)).map (fun kv => kv.2)

/-- Python `x.get(k, dflt)`: raises `AttributeError` unless `x` is a dict. -/
def pyGetD (r : Json) (k : String) (dflt : Json) : Except String Json :=
  match r with
  | .obj kvs => .ok ((objGet? kvs k).getD dflt)
  | _ => .error "AttributeError"

/-- Python `x.get(k)` (default `None`). -/
def pyGet (r : Json) (k : String) : Except String Json := pyGetD r k .null

/-- Python `x.get(k)` distinguishing an absent key, for `payload.get("type")`. -/
def pyGetOpt (r : Json) (k : String) : Except String (Option Json) :=
  match r with
  | .obj kvs => .ok (objGet? kvs k)
  | _ => .error "AttributeError"

/-- Python iteration over a JSON-shaped value: lists yield their elements,
strings their characters, dicts their keys; other values raise `TypeError`. -/
def pyIter : Json → Except String (List Json)
  | .arr xs => .ok xs
  | .str s => .ok (s.data.map (fun c => .str (String.mk [c])))
  | .obj kvs => .ok (kvs.map (fun kv => .str kv.1))
  | _ => .error "TypeError"

/-- Does the value equal the Python string literal `s` (Python `==`)? -/
def isStrEq (j : Json) (s : String) : Bool :=
  match j with
  | .str t => t = s
  | _ => false

/-- Python `str.strip()` (whitespace from both ends). -/
def pyStrip (s : String) : String :=
  String.mk (((s.data.dropWhile Char.isWhitespace).reverse.dropWhile Char.isWhitespace).reverse)

/-- Split a character list at every newline. Always returns at least one
(possibly empty) segment. -/
def splitNL : List Char → List (List Char)
  | [] => [[]]
  | c :: cs =>
    match splitNL cs with
    | [] => if c = '\n' then [[], [c]] else [[c]]
    | p :: ps => if c = '\n' then [] :: p :: ps else (c :: p) :: ps

/-- Python `str.splitlines()` for `\n`-separated text (the only line
separator the modelled git oracle emits): one entry per line, with a
trailing newline not producing a final empty entry. -/
def pySplitlines (s : String) : List String :=
  match s.data with
  | [] => []
  | cs =>
    let ps := splitNL cs
    if ps.getLast? = some [] then (ps.dropLast).map String.mk else ps.map String.mk

/-- Is `needle` a contiguous substring of `hay` (Boolean check)? -/
def subStr (needle hay : String) : Bool :=
  (List.range (hay.data.length + 1)).any
    (fun i => (hay.data.drop i).take needle.data.length == needle.data)

/-- `hay` contains `needle` as a contiguous substring. -/
def StrContains (hay needle : String) : Prop :=
  ∃ a b, hay = a ++ needle ++ b

/-- Source `format_pre`: empty for `None`, otherwise an escaped `<pre>` block. -/
def format_pre (text : Json) : String :=
  match text with
  | .null => ""
  | v => "<pre>" ++ htmlEscape (pyStr v) ++ "</pre>"

/-- Source `format_text_block`: escapes the text and turns newlines into
`<br>`; raises on non-string input (Python `html.escape`). -/
def format_text_block (text : Json) : Except String String := do
  let escaped ← pyEscape text
  pure (escaped.replace "\n" "<br>")

/-- Source `render_reasoning_summary_item`. -/
def render_reasoning_summary_item (item : Json) : String :=
  match item with
  | .obj kvs =>
    match objGet? kvs "type", objGet? kvs "text" with
    | some (.str kind), some text =>
      match text with
      | .null => htmlEscape (pyStr item)
      | t =>
        let textValue := pyStr t
        let textHtml := (htmlEscape textValue).replace "\n" "<br>"
        "<strong>" ++ htmlEscape kind ++ "</strong>: " ++ textHtml
    | _, _ => htmlEscape (pyStr item)
  | _ => htmlEscape (pyStr item)

/-- Source `format_payload`; `dp` models `json.dumps(payload, indent=2,
ensure_ascii=False)`. -/
def format_payload (dp : Json → String) (payload : Json) (collapsed : Bool) : String :=
  let pre := "<pre>" ++ htmlEscape (dp payload) ++ "</pre>"
  if collapsed then "<details><summary>Show payload</summary>" ++ pre ++ "</details>" else pre

/-- Source `try_parse_json`; `d` models `json.loads`. -/
def try_parse_json (d : String → Except String Json) (value : Json) : Option Json :=
  match value with
  | .obj kvs => some (.obj kvs)
  | .arr xs => some (.arr xs)
  | .str s =>
    let text := pyStrip s
    if text = "" then none else (d text).toOption
  | _ => none

/-- Source `render_scalar`. -/
def render_scalar : Json → String
  | .null => "<em>null</em>"
  | .str s =>
    if s.data.contains '\n' then format_pre (.str s)
    else "<span>" ++ htmlEscape s ++ "</span>"
  | v => "<span>" ++ htmlEscape (pyStr v) ++ "</span>"

/-- The body text selector of `render_code_block` (source line 365):
`node.get("code") or node.get("content") or node.get("text") or ""` --
Python `or` takes the first *truthy* value. -/
def codeBodyValue (kvs : List (String × Json)) : Json :=
  pyOr ((objGet? kvs "code").getD .null)
    (pyOr ((objGet? kvs "content").getD .null)
      (pyOr ((objGet? kvs "text").getD .null) (.str "")))

/-- Source `render_code_block` (the node is a dict); a truthy non-string
`language` makes `html.escape` raise. -/
def render_code_block (kvs : List (String × Json)) : Except String String := do
  let code := pyStr (codeBodyValue kvs)
  let languageJ := pyOr ((objGet? kvs "language").getD .null)
    (pyOr ((objGet? kvs "lang").getD .null) ((objGet? kvs "programming_language").getD .null))
  let header ←
    if truthy languageJ then do
      let l ← pyEscape languageJ
      pure ("<div class=\"code-lang\">" ++ l ++ "</div>")
    else pure ""
  pure ("<div class=\"code-block\">" ++ header ++ "<pre><code>" ++ htmlEscape code ++ "</code></pre></div>")

mutual
/-- Source `render_structured_data`: the recursive structured-data renderer. -/
def render_structured_data : Json → Except String String
  | .obj kvs =>
    if isStrEq ((objGet? kvs "type").getD .null) "code" then render_code_block kvs
    else do
      let rows ← renderRows kvs
      pure ("<table class=\"kv-table\">" ++ strJoin rows ++ "</table>")
  | .arr xs => do
    let items ← renderItems xs
    pure ("<ul class=\"list-nested\">" ++ strJoin items ++ "</ul>")
  | v => pure (render_scalar v)

/-- The key/value rows of `render_structured_data` on a dict. -/
def renderRows : List (String × Json) → Except String (List String)
  | [] => pure []
  | (k, v) :: rest => do
    let inner ← render_structured_data v
    let rows ← renderRows rest
    pure (("<tr><th>" ++ htmlEscape k ++ "</th><td>" ++ inner ++ "</td></tr>") :: rows)

/-- The list items of `render_structured_data` on a list. -/
def renderItems : List Json → Except String (List String)
  | [] => pure []
  | x :: rest => do
    let inner ← render_structured_data x
    let items ← renderItems rest
    pure (("<li>" ++ inner ++ "</li>") :: items)
end

/-- One step of `render_plan_board`: a dict-shaped plan item becomes a
list item with a status chip; anything else is skipped. -/
def planItem (item : Json) : Option String :=
  match item with
  | .obj ikvs =>
    let status := pyStr ((objGet? ikvs "status").getD (.str "unknown"))
    let statusClass := (status.toLower).replace " " "-"
    let step := htmlEscape (pyStr ((objGet? ikvs "step").getD (.str "")))
    some ("<li><span class=\"status-chip status-" ++ statusClass ++ "\">"
      ++ htmlEscape (status.replace "_" " ") ++ "</span>" ++ "<span>" ++ step ++ "</span></li>")
  | _ => none

/-- Source `render_plan_board`. -/
def render_plan_board (data : Option Json) : Option String :=
  match data with
  | some (.obj kvs) =>
    match objGet? kvs "plan" with
    | some (.arr plan) =>
      let explanation := (objGet? kvs "explanation").getD .null
      let items := plan.filterMap planItem
      if items.isEmpty then none
      else
        let expl := if truthy explanation then "<p>" ++ htmlEscape (pyStr explanation) ++ "</p>" else ""
        some ("<section class=\"plan-board\"><h4>Plan</h4>" ++ expl
          ++ "<ol>" ++ strJoin items ++ "</ol></section>")
    | _ => none
  | _ => none

/-- One line of `render_diff`. -/
def renderDiffLine (line : String) : String :=
  let e := htmlEscape line
  let escaped := if e = "" then "&nbsp;" else e
  let cls :=
    if line.startsWith "@@" then "diff-hunk"
    else if line.startsWith "+++ " ∨ line.startsWith "--- " then "diff-file"
    else if line.startsWith "+" ∧ ¬ line.startsWith "+++" then "diff-add"
    else if line.startsWith "-" ∧ ¬ line.startsWith "---" then "diff-del"
    else "diff-context"
  "<span class=\"" ++ cls ++ "\">" ++ escaped ++ "</span>"

/-- Source `render_diff`. -/
def render_diff (diffText : String) : String :=
  if diffText = "" then "<pre class=\"diff-block\"><span class=\"diff-context\">(no diff)</span></pre>"
  else "<pre class=\"diff-block\">" ++ strJoin ((pySplitlines diffText).map renderDiffLine) ++ "</pre>"

/-- Source `extract_text_chunks`: keeps the `text` value of every
dict-shaped chunk whose `type` is `input_text`/`output_text` and whose
`text` is Python-truthy; iteration raises on non-iterable input. -/
def extract_text_chunks (contentItems : Json) : Except String (List Json) := do
  let items ← pyIter contentItems
  pure (items.filterMap (fun chunk =>
    match chunk with
    | .obj kvs =>
      let t := (objGet? kvs "type").getD .null
      if isStrEq t "input_text" ∨ isStrEq t "output_text" then
        let tx := (objGet? kvs "text").getD .null
        if truthy tx then some tx else none
      else none
    | _ => none))

/-- The renderable unit of the timeline (source dataclass `Entry`). The
`timestamp` and `raw_type` fields hold whatever value the record carried,
exactly as the Python dataclass stores them. -/
structure Entry where
  timestamp : Json
  label : String
  body_html : String
  css_class : String
  raw_type : Json
  lineno : Nat
  extra_classes : List String := []
  deriving Repr

/-- Source `convert_response_item`; returns `none` where the source
returns `None` (a message with no extractable text). -/
def convert_response_item (dp : Json → String) (d : String → Except String Json)
    (record : Json) (lineno : Nat) : Except String (Option Entry) := do
  let payload0 ← pyGet record "payload"
  let payload := pyOr payload0 (.obj [])
  let subtype ← pyGetOpt payload "type"
  let timestamp ← pyGetD record "timestamp" (.str "unknown")
  let role ← pyGetD payload "role" (.str "n/a")
  let subtypeJ := subtype.getD .null
  if isStrEq subtypeJ "message" then do
    let content ← pyGet payload "content"
    let texts ← extract_text_chunks (pyOr content (.arr []))
    if texts.isEmpty then pure none
    else do
      let parts ← texts.mapM format_text_block
      let textHtml := String.intercalate "<hr>" parts
      let css := if isStrEq role "user" then "entry-user" else "entry-assistant"
      pure (some
        { timestamp := timestamp
          label := "Message · " ++ pyStr role
          body_html := textHtml
          css_class := css
          raw_type := .str "response_item/message"
          lineno := lineno })
  else if isStrEq subtypeJ "function_call" then do
    let name ← pyGetD payload "name" (.str "unknown")
    let args0 ← pyGet payload "arguments"
    let args := pyOr args0 (.str "")
    let callId ← pyGetD payload "call_id" (.str "n/a")
    let parsedArgs := try_parse_json d args
    let planHtml : Option String :=
      if isStrEq name "update_plan" then render_plan_board parsedArgs else none
    let argsHtml ←
      match parsedArgs with
      | some p => render_structured_data p
      | none => if truthy args then pure (format_pre args) else pure ""
    let nameEsc ← pyEscape name
    let callEsc ← pyEscape callId
    let body := "<div><strong>Call:</strong> " ++ nameEsc ++ "</div>"
      ++ "<div><strong>call_id:</strong> " ++ callEsc ++ "</div>"
      ++ (planHtml.getD "") ++ argsHtml
    pure (some
      { timestamp := timestamp
        label := "Function call"
        body_html := body
        css_class := "entry-tool"
        raw_type := .str "response_item/function_call"
        lineno := lineno })
  else if isStrEq subtypeJ "function_call_output" then do
    let callId ← pyGetD payload "call_id" (.str "n/a")
    let output ← pyGet payload "output"
    let parsedOutput := try_parse_json d output
    let outputHtml ←
      match parsedOutput with
      | some p => render_structured_data p
      | none =>
        match output with
        | .null => pure "<em>no output</em>"
        | v => pure (render_scalar v)
    let callEsc ← pyEscape callId
    let body := "<div><strong>call_id:</strong> " ++ callEsc ++ "</div>" ++ outputHtml
    pure (some
      { timestamp := timestamp
        label := "Function output"
        body_html := body
        css_class := "entry-tool"
        raw_type := .str "response_item/function_call_output"
        lineno := lineno })
  else if isStrEq subtypeJ "reasoning" then do
    let summary0 ← pyGet payload "summary"
    let summary := pyOr summary0 (.arr [])
    let summaryHtml ←
      if truthy summary then do
        let items ← pyIter summary
        pure ("<ul>" ++ strJoin (items.map
          (fun item => "<li>" ++ render_reasoning_summary_item item ++ "</li>")) ++ "</ul>")
      else pure "<em>No public summary (content encrypted)</em>"
    pure (some
      { timestamp := timestamp
        label := "Reasoning note"
        body_html := summaryHtml
        css_class := "entry-assistant"
        raw_type := .str "response_item/reasoning"
        lineno := lineno
        extra_classes := ["collapsible-meta"] })
  else
    pure (some
      { timestamp := timestamp
        label := "Response item (" ++ pyStr (pyOr subtypeJ (.str "unknown")) ++ ")"
        body_html := format_payload dp payload false
        css_class := "entry-system"
        raw_type := .str "response_item/unknown"
        lineno := lineno })

/-- Source `convert_event_msg`. -/
def convert_event_msg (dp : Json → String) (record : Json) (lineno : Nat) :
    Except String Entry := do
  let payload0 ← pyGet record "payload"
  let payload := pyOr payload0 (.obj [])
  let subtype ← pyGetOpt payload "type"
  let timestamp ← pyGetD record "timestamp" (.str "unknown")
  let subtypeJ := subtype.getD .null
  if isStrEq subtypeJ "user_message" ∨ isStrEq subtypeJ "agent_message" then do
    let message ← pyGetD payload "message" (.str "")
    let kind ← pyGetD payload "kind" (.str "plain")
    let css := if isStrEq subtypeJ "user_message" then "entry-user" else "entry-assistant"
    let kindEsc ← pyEscape kind
    let body := "<div><strong>Kind:</strong> " ++ kindEsc ++ "</div>" ++ format_pre message
    pure
      { timestamp := timestamp
        label := "Event · " ++ pyStr subtypeJ
        body_html := body
        css_class := css
        raw_type := .str ("event_msg/" ++ pyStr subtypeJ)
        lineno := lineno }
  else if isStrEq subtypeJ "token_count" then do
    let info0 ← pyGet payload "info"
    let info := pyOr info0 (.obj [])
    pure
      { timestamp := timestamp
        label := "Token usage"
        body_html := format_payload dp info true
        css_class := "entry-metric"
        raw_type := .str "event_msg/token_count"
        lineno := lineno
        extra_classes := ["collapsible-meta"] }
  else
    pure
      { timestamp := timestamp
        label := "Event (" ++ pyStr (pyOr subtypeJ (.str "unknown")) ++ ")"
        body_html := format_payload dp payload false
        css_class := "entry-system"
        raw_type := .str ("event_msg/" ++ pyStr (pyOr subtypeJ (.str "unknown")))
        lineno := lineno }

/-- Source `convert_record`: dispatch on the record's `type`. -/
def convert_record (dp : Json → String) (d : String → Except String Json)
    (record : Json) (lineno : Nat) : Except String (Option Entry) := do
  let rectype ← pyGetD record "type" (.str "unknown")
  let timestamp ← pyGetD record "timestamp" (.str "unknown")
  let payload ← pyGetD record "payload" (.obj [])
  if isStrEq rectype "session_meta" then
    pure (some
      { timestamp := timestamp
        label := "Session metadata"
        body_html := format_payload dp payload true
        css_class := "entry-system"
        raw_type := rectype
        lineno := lineno })
  else if isStrEq rectype "turn_context" then
    pure (some
      { timestamp := timestamp
        label := "Turn context"
        body_html := format_payload dp payload true
        css_class := "entry-system"
        raw_type := rectype
        lineno := lineno
        extra_classes := ["collapsible-meta"] })
  else if isStrEq rectype "response_item" then
    convert_response_item dp d record lineno
  else if isStrEq rectype "event_msg" then do
    let e ← convert_event_msg dp record lineno
    pure (some e)
  else
    pure (some
      { timestamp := timestamp
        label := "Unhandled type: " ++ pyStr rectype
        body_html := format_payload dp payload false
        css_class := "entry-system"
        raw_type := rectype
        lineno := lineno })

/-- The error-styled Entry that `load_entries` synthesizes for a line that
is not valid JSON; `exc` is the decode failure message. -/
def mkMalformedEntry (exc : String) (lineno : Nat) : Entry :=
  { timestamp := .str "n/a"
    label := "Malformed JSON"
    body_html := "<pre>" ++ htmlEscape exc ++ "</pre>"
    css_class := "entry-error"
    raw_type := .str "error"
    lineno := lineno }

/-- The loop of source `load_entries`, starting at line number `lineno`. -/
def loadEntriesFrom (dp : Json → String) (d : String → Except String Json)
    (lineno : Nat) : List String → Except String (List Entry)
  | [] => .ok []
  | l :: ls =>
    let line := pyStrip l
    if line = "" then loadEntriesFrom dp d (lineno + 1) ls
    else
      match d line with
      | .error exc =>
        (loadEntriesFrom dp d (lineno + 1) ls).map (fun es => mkMalformedEntry exc lineno :: es)
      | .ok record => do
        let entry ← convert_record dp d record lineno
        let rest ← loadEntriesFrom dp d (lineno + 1) ls
        pure (entry.toList ++ rest)

/-- Source `load_entries` over the (already split) lines of the log file. -/
def load_entries (dp : Json → String) (d : String → Except String Json)
    (lines : List String) : Except String (List Entry) :=
  loadEntriesFrom dp d 1 lines

/-- Source dataclass `RunCodeUpload` (an Upload Snapshot); `timestamp`
holds whatever value the record carried. -/
structure RunCodeUpload where
  index : Nat
  timestamp : Json
  lineno : Nat
  code : String
  flags : String
  deriving Repr

/-- Source `TARGET_RUN_CODE_FN`. -/
def TARGET_RUN_CODE_FN : String := "mcp__kernelmcp__vm_compile_c_and_upload"

/-- The `code` text extracted from a matching call's argument dict
(source lines `code_value = args.get("code", "")` /
`code_str = str("" if code_value is None else code_value)`). -/
def uploadCode (args : List (String × Json)) : String :=
  let codeValue := (objGet? args "code").getD (.str "")
  pyStr (match codeValue with | .null => .str "" | v => v)

/-- The `flags` text extracted from a matching call's argument dict: a
list is stringified element-wise and newline-joined, `None` becomes the
empty string, anything else is stringified directly. -/
def uploadFlags (args : List (String × Json)) : String :=
  let flagsValue := (objGet? args "flags").getD (.str "")
  match flagsValue with
  | .arr xs => String.intercalate "\n" (xs.map pyStr)
  | .null => ""
  | v => pyStr v

/-- The per-record filter of `extract_run_code_uploads`: returns the
argument dict and the record timestamp when the record is a
`response_item`/`function_call` naming the target function with
dict-shaped parsed arguments, `none` when the record does not match. -/
def matchUpload (d : String → Except String Json) (record : Json) :
    Except String (Option (List (String × Json) × Json)) := do
  let rectype ← pyGet record "type"
  if ¬ isStrEq rectype "response_item" then pure none
  else do
    let payload0 ← pyGet record "payload"
    let payload := pyOr payload0 (.obj [])
    let ptype ← pyGet payload "type"
    if ¬ isStrEq ptype "function_call" then pure none
    else do
      let name ← pyGet payload "name"
      if ¬ isStrEq name TARGET_RUN_CODE_FN then pure none
      else do
        let argsRaw ← pyGet payload "arguments"
        match try_parse_json d argsRaw with
        | some (.obj kvs) => do
          let ts ← pyGetD record "timestamp" (.str "unknown")
          pure (some (kvs, ts))
        | _ => pure none

/-- The loop of source `extract_run_code_uploads`: walks the lines with
the current line number and the uploads collected so far; a line that is
not valid JSON is skipped silently. -/
def extractFrom (d : String → Except String Json) (lineno : Nat)
    (acc : List RunCodeUpload) : List String → Except String (List RunCodeUpload)
  | [] => .ok acc
  | l :: ls =>
    let line := pyStrip l
    if line = "" then extractFrom d (lineno + 1) acc ls
    else
      match d line with
      | .error _ => extractFrom d (lineno + 1) acc ls
      | .ok record => do
        match (← matchUpload d record) with
        | none => extractFrom d (lineno + 1) acc ls
        | some (kvs, ts) =>
          extractFrom d (lineno + 1)
            (acc ++ [{ index := acc.length + 1
                       timestamp := ts
                       lineno := lineno
                       code := uploadCode kvs
                       flags := uploadFlags kvs }]) ls

/-- Source `extract_run_code_uploads` over the lines of the log file. -/
def extract_run_code_uploads (d : String → Except String Json)
    (lines : List String) : Except String (List RunCodeUpload) :=
  extractFrom d 1 [] lines

/-- An invocation of the external versioning tool: the argument list
passed to `run_git_command` (after the leading `git`). -/
def GitCmd := List String
deriving instance DecidableEq for GitCmd

/-- Abstract state of the ephemeral repository the Revision Builder
creates: the two tracked files in the working tree, the staged copies,
and the committed snapshots oldest-first. -/
structure GitState where
  work : String × String
  staged : String × String
  commits : List (String × String)

/-- The abstract commit identifier of the `i`-th (0-based) commit. -/
def revId (i : Nat) : String := String.mk (List.replicate (i + 1) 'r')

/-- The commit identifiers of a repository with `n` commits,
oldest-first. -/
def revIds (n : Nat) : List String := (List.range n).map revId

/-- Newline-joining of a list of lines (Python `"\n".join`). -/
def joinNL : List String → String
  | [] => ""
  | [s] => s
  | s :: rest => s ++ "\n" ++ joinNL rest

/-- The error text `run_git_command` raises for a failing invocation:
the subcommand followed by its stripped stderr, with a fixed fallback
when stderr is blank (source lines 907-909). -/
def gitErrMsg (args : GitCmd) (stderr : String) : String :=
  let t := pyStrip stderr
  "git " ++ String.intercalate " " args ++ ": " ++ (if t = "" then "git command failed" else t)

/-- The abstract diff text `git show --stat --patch` reports for a commit. -/
def showPatch (r : String) : String := "patch " ++ r

/-- The successful-case semantics of one git invocation on the abstract
repository state: init, add both tracked files, commit allowing empty,
list commits oldest-first, resolve a short id, show a patch. The
catch-all arm is unreachable for the fixed command shapes the Revision
Builder issues. -/
def gitSem (args : GitCmd) (st : GitState) : String × GitState :=
  match args with
  | ["init", "-q"] => ("", st)
  | ["add", "code.c", "flags.txt"] => ("", { st with staged := st.work })
  | ["commit", "-m", _, "--allow-empty"] =>
    ("", { st with commits := st.commits ++ [st.staged] })
  | ["rev-list", "--reverse", "HEAD"] => (joinNL (revIds st.commits.length), st)
  | ["rev-parse", "--short", r] => (r, st)
  | ["show", "--stat", "--patch", r] => (showPatch r, st)
  | _ => ("", st)

/-- Source `run_git_command`, with the external binary modelled as an
oracle: `g args = some stderr` means this invocation reports a non-zero
status with that stderr (raising `RuntimeError` with the subcommand and
diagnostic text), and a successful invocation follows `gitSem`. -/
def run_git_command (g : GitCmd → Option String) (args : GitCmd) (st : GitState) :
    Except String (String × GitState) :=
  match g args with
  | some stderr => .error (gitErrMsg args stderr)
  | none => .ok (gitSem args st)

/-- `git add` of the two tracked files (source line 871). -/
def addCmd : GitCmd := ["add", "code.c", "flags.txt"]

/-- `git commit` of one snapshot (source lines 872-877). -/
def commitCmd (i : Nat) : GitCmd := ["commit", "-m", "upload " ++ toString i, "--allow-empty"]

/-- `git rev-list --reverse HEAD` (source line 878). -/
def revListCmd : GitCmd := ["rev-list", "--reverse", "HEAD"]

/-- `git rev-parse --short` of one revision (source line 882). -/
def revParseCmd (r : String) : GitCmd := ["rev-parse", "--short", r]

/-- `git show --stat --patch` of one revision (source line 883). -/
def showCmd (r : String) : GitCmd := ["show", "--stat", "--patch", r]

/-- The per-snapshot commit loop of `build_upload_git_history` (source
lines 868-877): write both files, stage them, commit. Returns the final
state (or the first failure) together with the trace of git invocations. -/
def commitLoop (g : GitCmd → Option String) :
    List RunCodeUpload → GitState → List GitCmd → (Except String GitState) × List GitCmd
  | [], st, tr => (.ok st, tr)
  | u :: us, st, tr =>
    let st1 : GitState := { st with work := (u.code, u.flags) }
    match run_git_command g addCmd st1 with
    | .error m => (.error m, tr ++ [addCmd])
    | .ok (_, st2) =>
      match run_git_command g (commitCmd u.index) st2 with
      | .error m => (.error m, tr ++ [addCmd, commitCmd u.index])
      | .ok (_, st3) => commitLoop g us st3 (tr ++ [addCmd, commitCmd u.index])

/-- The per-commit diff loop of `build_upload_git_history` (source lines
881-885): resolve the short id, take the patch, label with the snapshot's
sequence index. -/
def diffLoop (g : GitCmd → Option String) :
    List (String × RunCodeUpload) → GitState → List GitCmd →
    (Except String (List (String × String))) × List GitCmd
  | [], _, tr => (.ok [], tr)
  | (rev, u) :: rest, st, tr =>
    match run_git_command g (revParseCmd rev) st with
    | .error m => (.error m, tr ++ [revParseCmd rev])
    | .ok (shortOut, st1) =>
      let short := pyStrip shortOut
      match run_git_command g (showCmd rev) st1 with
      | .error m => (.error m, tr ++ [revParseCmd rev, showCmd rev])
      | .ok (diff, st2) =>
        match diffLoop g rest st2 (tr ++ [revParseCmd rev, showCmd rev]) with
        | (.error m, tr') => (.error m, tr')
        | (.ok ds, tr') => (.ok ((short ++ " · upload " ++ toString u.index, diff) :: ds), tr')

/-- Source `build_upload_git_history`: the Revision Builder. Returns the
labeled diff list (or the first git failure, `RuntimeError`-style) and
the full trace of versioning-tool invocations. -/
def build_upload_git_history (g : GitCmd → Option String) (uploads : List RunCodeUpload) :
    (Except String (List (String × String))) × List GitCmd :=
  if uploads.isEmpty then (.ok [], [])
  else
    let st0 : GitState := ⟨("", ""), ("", ""), []⟩
    match run_git_command g ["init", "-q"] st0 with
    | .error m => (.error m, [["init", "-q"]])
    | .ok (_, st1) =>
      match commitLoop g uploads st1 [["init", "-q"]] with
      | (.error m, tr) => (.error m, tr)
      | (.ok st2, tr) =>
        match run_git_command g revListCmd st2 with
        | .error m => (.error m, tr ++ [revListCmd])
        | .ok (revsOut, st3) =>
          let revs := (pySplitlines (pyStrip revsOut)).filter (fun r => r ≠ "")
          diffLoop g (revs.zip uploads) st3 (tr ++ [revListCmd])

/-- Source constant `BASE_CSS`: the fixed stylesheet embedded in every page. -/
def BASE_CSS : String :=
  "\n    body \x7b\n      font-family: system-ui, -apple-system, BlinkMacSystemFont, \"Segoe UI\", sans"
  ++ "-serif;\n      margin: 0;\n      background: #f5f6f8;\n      color: #1c1c1c;\n    \x7d\n    header \x7b"
  ++ "\n      padding: 1rem 2rem;\n      background: #232f3e;\n      color: white;\n    \x7d\n    .header-"
  ++ "top \x7b\n      display: flex;\n      align-items: center;\n      justify-content: space-between;\n "
  ++ "     gap: 1rem;\n      flex-wrap: wrap;\n    \x7d\n    .header-actions \x7b\n      display: flex;\n "
  ++ "     gap: 0.5rem;\n      flex-wrap: wrap;\n    \x7d\n    .container \x7b\n      padding: 1rem 2rem 3"
  ++ "rem;\n    \x7d\n    .entry \x7b\n      background: white;\n      border-radius: 8px;\n      box-shad"
  ++ "ow: 0 1px 3px rgba(0,0,0,0.08);\n      padding: 1rem;\n      margin-bottom: 1rem;\n      border-left"
  ++ ": 4px solid transparent;\n    \x7d\n    .entry header \x7b\n      display: flex;\n      justify-cont"
  ++ "ent: space-between;\n      align-items: baseline;\n      margin-bottom: 0.5rem;\n      padding: 0;\n"
  ++ "      background: none;\n      color: inherit;\n    \x7d\n    .entry-system \x7b border-color: #6c75"
  ++ "7d; \x7d\n    .entry-user \x7b border-color: #007bff; \x7d\n    .entry-assistant \x7b border-color: "
  ++ "#6f42c1; \x7d\n    .entry-tool \x7b border-color: #e36209; \x7d\n    .entry-metric \x7b border-color"
  ++ ": #198754; \x7d\n    .entry-error \x7b border-color: #dc3545; \x7d\n    pre \x7b\n      background: "
  ++ "#1e1e1e;\n      color: #f8f8f2;\n      padding: 0.75rem;\n      overflow-x: auto;\n      border-radi"
  ++ "us: 6px;\n    \x7d\n    details summary \x7b\n      cursor: pointer;\n      font-weight: 600;\n     "
  ++ " margin-bottom: 0.5rem;\n    \x7d\n    hr \x7b\n      border: none;\n      border-top: 1px solid #e5"
  ++ "e5e5;\n      margin: 0.75rem 0;\n    \x7d\n    .kv-table \x7b\n      width: 100%;\n      border-coll"
  ++ "apse: collapse;\n      margin: 0.5rem 0;\n    \x7d\n    .kv-table th,\n    .kv-table td \x7b\n      "
  ++ "padding: 0.35rem 0.5rem;\n      border-bottom: 1px solid #e5e5e5;\n      vertical-align: top;\n    \x7d"
  ++ "\n    .kv-table th \x7b\n      text-align: left;\n      width: 180px;\n      color: #495057;\n      "
  ++ "background: #f8f9fa;\n    \x7d\n    .list-nested \x7b\n      margin: 0.25rem 0 0.25rem 1.25rem;\n   "
  ++ "   padding-left: 1rem;\n    \x7d\n    .list-nested li \x7b\n      margin-bottom: 0.35rem;\n    \x7d\n"
  ++ "    .plan-board \x7b\n      background: #f8f9fb;\n      border-radius: 6px;\n      padding: 0.75rem;"
  ++ "\n      margin: 0.5rem 0;\n      border: 1px solid #e3e7ed;\n    \x7d\n    .plan-board h4 \x7b\n    "
  ++ "  margin: 0 0 0.5rem;\n    \x7d\n    .plan-board ol \x7b\n      margin: 0;\n      padding-left: 1.25"
  ++ "rem;\n    \x7d\n    .status-chip \x7b\n      display: inline-block;\n      padding: 0.1rem 0.6rem;\n"
  ++ "      border-radius: 999px;\n      font-size: 0.8rem;\n      margin-right: 0.5rem;\n      text-trans"
  ++ "form: capitalize;\n    \x7d\n    .status-chip.status-in_progress \x7b\n      background: #fff3cd;\n "
  ++ "     color: #7c5b07;\n    \x7d\n    .status-chip.status-pending \x7b\n      background: #e9ecef;\n  "
  ++ "    color: #495057;\n    \x7d\n    .status-chip.status-completed \x7b\n      background: #d1e7dd;\n "
  ++ "     color: #0f5132;\n    \x7d\n    .status-chip.status-error \x7b\n      background: #f8d7da;\n    "
  ++ "  color: #842029;\n    \x7d\n    .code-block \x7b\n      margin: 0.5rem 0;\n    \x7d\n    .code-lang"
  ++ " \x7b\n      font-size: 0.78rem;\n      color: #6c757d;\n      text-transform: uppercase;\n      let"
  ++ "ter-spacing: 0.05em;\n      margin-bottom: 0.25rem;\n    \x7d\n    .meta-toggle,\n    .nav-button \x7b"
  ++ "\n      border: none;\n      background: #ffc107;\n      color: #1c1c1c;\n      padding: 0.5rem 1rem"
  ++ ";\n      border-radius: 999px;\n      cursor: pointer;\n      font-weight: 600;\n      transition: b"
  ++ "ackground 0.2s ease;\n      text-decoration: none;\n      display: inline-flex;\n      align-items: "
  ++ "center;\n      justify-content: center;\n    \x7d\n    .nav-button \x7b\n      background: #0d6efd;\n"
  ++ "      color: white;\n    \x7d\n    .nav-button.secondary \x7b\n      background: #6c757d;\n    \x7d\n"
  ++ "    .meta-toggle:hover \x7b\n      background: #ffca2c;\n    \x7d\n    .nav-button:hover \x7b\n     "
  ++ " background: #0b5ed7;\n    \x7d\n    body.meta-hidden .entry.collapsible-meta \x7b\n      display: n"
  ++ "one;\n    \x7d\n    .panel \x7b\n      background: white;\n      border-radius: 8px;\n      box-shad"
  ++ "ow: 0 1px 3px rgba(0,0,0,0.08);\n      padding: 1rem;\n      margin-bottom: 1rem;\n    \x7d\n    .pa"
  ++ "nel h2 \x7b\n      margin-top: 0;\n    \x7d\n    .uploads-table \x7b\n      width: 100%;\n      bord"
  ++ "er-collapse: collapse;\n    \x7d\n    .uploads-table th,\n    .uploads-table td \x7b\n      border-b"
  ++ "ottom: 1px solid #e5e5e5;\n      padding: 0.35rem 0.5rem;\n      text-align: left;\n    \x7d\n    .u"
  ++ "ploads-table th \x7b\n      background: #f8f9fa;\n    \x7d\n    .diff-card \x7b\n      background: w"
  ++ "hite;\n      border-radius: 8px;\n      padding: 1rem;\n      margin-bottom: 1rem;\n      box-shadow"
  ++ ": 0 1px 3px rgba(0,0,0,0.08);\n      border-left: 4px solid #0d6efd;\n    \x7d\n    .diff-card h3 \x7b"
  ++ "\n      margin-top: 0;\n      margin-bottom: 0.5rem;\n    \x7d\n    .diff-card pre \x7b\n      margi"
  ++ "n: 0;\n    \x7d\n    .error-banner \x7b\n      background: #f8d7da;\n      color: #842029;\n      pa"
  ++ "dding: 0.75rem 1rem;\n      border-radius: 6px;\n    \x7d\n    .diff-block \x7b\n      background: #"
  ++ "0b0d12;\n      color: #e6edf3;\n      padding: 0.75rem;\n      border-radius: 6px;\n      font-famil"
  ++ "y: \"SFMono-Regular\", Consolas, Menlo, monospace;\n      font-size: 0.9rem;\n      line-height: 1.3"
  ++ "5;\n      overflow-x: auto;\n      white-space: pre;\n    \x7d\n    .diff-block span \x7b\n      dis"
  ++ "play: block;\n      padding: 0 0.35rem;\n      border-radius: 4px;\n    \x7d\n    .diff-add \x7b\n  "
  ++ "    background: rgba(46, 160, 67, 0.25);\n      color: #7ee787;\n    \x7d\n    .diff-del \x7b\n     "
  ++ " background: rgba(248, 81, 73, 0.25);\n      color: #ffaba8;\n    \x7d\n    .diff-hunk \x7b\n      c"
  ++ "olor: #79c0ff;\n    \x7d\n    .diff-file \x7b\n      color: #ffa657;\n    \x7d\n    .diff-context \x7b"
  ++ "\n      color: #c9d1d9;\n    \x7d\n"

/-- One table row of `render_upload_summary`; escaping the stored
timestamp raises if the record carried a non-string timestamp. -/
def renderUploadRow (u : RunCodeUpload) : Except String String := do
  let codeDetails :=
    if u.code ≠ "" then
      "<details><summary>" ++ toString u.code.length ++ " chars</summary><pre>"
        ++ htmlEscape u.code ++ "</pre></details>"
    else "<em>empty</em>"
  let flagsDetails :=
    if u.flags ≠ "" then
      "<details><summary>" ++ toString u.flags.length ++ " chars</summary><pre>"
        ++ htmlEscape u.flags ++ "</pre></details>"
    else "<em>empty</em>"
  let tsEsc ← pyEscape u.timestamp
  pure ("<tr>" ++ "<td>" ++ toString u.index ++ "</td>" ++ "<td>" ++ tsEsc ++ "</td>"
    ++ "<td>line " ++ toString u.lineno ++ "</td>" ++ "<td>" ++ codeDetails ++ "</td>"
    ++ "<td>" ++ flagsDetails ++ "</td>" ++ "</tr>")

/-- Source `render_upload_summary`. -/
def render_upload_summary (uploads : List RunCodeUpload) : Except String String :=
  if uploads.isEmpty then
    .ok ("<section class=\x27panel\x27>" ++ "<h2>Captured uploads</h2>"
      ++ "<p>No calls to mcp__kernelmcp__vm_compile_c_and_upload were found in this log.</p>"
      ++ "</section>")
  else do
    let rows ← uploads.mapM renderUploadRow
    let table := "<table class=\x27uploads-table\x27>"
      ++ "<thead><tr><th>#</th><th>Timestamp</th><th>Location</th><th>Code</th><th>Flags</th></tr></thead>"
      ++ "<tbody>" ++ strJoin rows ++ "</tbody>" ++ "</table>"
    pure ("<section class=\x27panel\x27><h2>Captured uploads (" ++ toString uploads.length
      ++ ")</h2>" ++ table ++ "</section>")

/-- The diff section of `build_run_code_page` when the Revision Builder
failed: a panel holding a visible error banner with the failure text. -/
def diffsErrorSection (exc : String) : String :=
  "<section class=\x27panel\x27>" ++ "<h2>Commit diffs</h2>"
    ++ "<div class=\x27error-banner\x27>Failed to build git history: " ++ htmlEscape exc ++ "</div>"
    ++ "</section>"

/-- The diff section of `build_run_code_page` on success: one card per
labeled diff. -/
def diffsOkSection (diffs : List (String × String)) : String :=
  let cards := strJoin (diffs.map (fun ld =>
    "<div class=\x27diff-card\x27><h3>" ++ htmlEscape ld.1 ++ "</h3>" ++ render_diff ld.2 ++ "</div>"))
  "<section class=\x27panel\x27><h2>Commit diffs</h2>" ++ cards ++ "</section>"

/-- Source `build_run_code_page`: re-extracts the uploads from the log
lines, renders the summary, and renders either the diff cards or the
error banner around the Revision Builder's outcome. -/
def build_run_code_page (d : String → Except String Json) (g : GitCmd → Option String)
    (lines : List String) (sourcePath : String) : Except String String := do
  let uploads ← extract_run_code_uploads d lines
  let total := uploads.length
  let summarySection ← render_upload_summary uploads
  let diffsSection :=
    if uploads.isEmpty then ""
    else
      match (build_upload_git_history g uploads).1 with
      | .error exc => diffsErrorSection exc
      | .ok diffs => diffsOkSection diffs
  pure ("<!doctype html>\n<html lang=\"en\">\n<head>\n  <meta charset=\"utf-8\">\n"
    ++ "  <title>run_code uploads</title>\n  <style>\n" ++ BASE_CSS ++ "\n  </style>\n</head>\n"
    ++ "<body>\n  <header>\n    <div class=\"header-top\">\n      <h1>run_code uploads</h1>\n"
    ++ "      <div class=\"header-actions\">\n"
    ++ "        <a href=\"/index.html\" class=\"nav-button secondary\">Back to entries</a>\n"
    ++ "      </div>\n    </div>\n    <p>Source: " ++ htmlEscape sourcePath ++ " · "
    ++ toString total ++ " uploads</p>\n  </header>\n  <div class=\"container\">\n    "
    ++ summarySection ++ "\n    " ++ diffsSection ++ "\n  </div>\n</body>\n</html>\n")

/-- The fixed markup fragments the scalar/structured renderers emit
around escaped content. Every string in this list is a literal of the
source; none carries input-derived text. -/
def markupLits : List String :=
  ["", "<pre>", "</pre>", "<em>null</em>", "<span>", "</span>",
   "<table class=\"kv-table\">", "</table>", "<tr><th>", "</th><td>", "</td></tr>",
   "<ul class=\"list-nested\">", "</ul>", "<li>", "</li>",
   "<div class=\"code-block\">", "<div class=\"code-lang\">", "</div>",
   "<pre><code>", "</code></pre></div>"]

/-- A string is safe HTML output when it is built exclusively from the
renderers' fixed markup literals and `html.escape` images: every piece of
input-derived text in it has passed through `htmlEscape`. -/
inductive SafeHtml : String → Prop
  | lit (t : String) : t ∈ markupLits → SafeHtml t
  | esc (u : String) : SafeHtml (htmlEscape u)
  | app (a b : String) : SafeHtml a → SafeHtml b → SafeHtml (a ++ b)

/-- The entity atoms `html.escape` may emit. -/
def escEntities : List String := ["&amp;", "&lt;", "&gt;", "&quot;", "&#x27;"]

theorem safeHtml_empty : SafeHtml "" := SafeHtml.lit "" (by decide)

theorem safeHtml_strJoin (l : List String) (h : ∀ s ∈ l, SafeHtml s) :
    SafeHtml (strJoin l) := by
  induction l with
  | nil => exact safeHtml_empty
  | cons a t ih =>
    exact SafeHtml.app _ _ (h a (by simp)) (ih (fun s hs => h s (by simp [hs])))

theorem pyEscape_ok {j : Json} {s : String} (h : pyEscape j = .ok s) :
    ∃ u, s = htmlEscape u := by
  cases j <;> simp [pyEscape] at h
  exact ⟨_, h.symm⟩

theorem format_pre_safe (t : Json) : SafeHtml (format_pre t) := by
  cases t with
  | null => exact safeHtml_empty
  | bool b =>
    repeat' first | exact SafeHtml.esc _ | (apply SafeHtml.lit ; decide) | apply SafeHtml.app
  | num n =>
    repeat' first | exact SafeHtml.esc _ | (apply SafeHtml.lit ; decide) | apply SafeHtml.app
  | str s =>
    repeat' first | exact SafeHtml.esc _ | (apply SafeHtml.lit ; decide) | apply SafeHtml.app
  | arr xs =>
    repeat' first | exact SafeHtml.esc _ | (apply SafeHtml.lit ; decide) | apply SafeHtml.app
  | obj kvs =>
    repeat' first | exact SafeHtml.esc _ | (apply SafeHtml.lit ; decide) | apply SafeHtml.app

theorem render_scalar_safe (v : Json) : SafeHtml (render_scalar v) := by
  cases v with
  | str s =>
    by_cases h : s.data.contains '\n' = true
    · simp only [render_scalar, h, if_true]
      exact format_pre_safe _
    · simp only [render_scalar, h, if_false]
      repeat' first | exact SafeHtml.esc _ | (apply SafeHtml.lit ; decide) | apply SafeHtml.app
  | _ =>
    simp only [render_scalar]
    repeat' first | exact SafeHtml.esc _ | (apply SafeHtml.lit ; decide) | apply SafeHtml.app

theorem render_code_block_safe (kvs : List (String × Json)) (s : String)
    (h : render_code_block kvs = .ok s) : SafeHtml s := by
  unfold render_code_block at h
  simp only [bind, Except.bind, pure, Except.pure] at h
  split at h
  · split at h
    · exact absurd h (by simp)
    · rename_i l he
      simp only [Except.ok.injEq] at h
      obtain ⟨u, hu⟩ := pyEscape_ok he
      subst hu
      rw [← h]
      repeat' first | exact SafeHtml.esc _ | (apply SafeHtml.lit ; decide) | apply SafeHtml.app
  · simp only [Except.ok.injEq] at h
    rw [← h]
    repeat' first | exact SafeHtml.esc _ | (apply SafeHtml.lit ; decide) | apply SafeHtml.app

theorem renderRows_safe (kvs : List (String × Json))
    (hrec : ∀ p ∈ kvs, ∀ s, render_structured_data p.2 = .ok s → SafeHtml s) :
    ∀ rs, renderRows kvs = .ok rs → ∀ r ∈ rs, SafeHtml r := by
  induction kvs with
  | nil =>
    intro rs h r hr
    simp only [renderRows, pure, Except.pure, Except.ok.injEq] at h
    subst h; simp at hr
  | cons p rest ih =>
    intro rs h r hr
    obtain ⟨k, v⟩ := p
    simp only [renderRows, bind, Except.bind] at h
    cases h1 : render_structured_data v with
    | error e => rw [h1] at h; simp at h
    | ok inner =>
      rw [h1] at h
      cases h2 : renderRows rest with
      | error e => rw [h2] at h; simp at h
      | ok rows =>
        rw [h2] at h
        simp only [pure, Except.pure, Except.ok.injEq] at h
        subst h
        rcases List.mem_cons.mp hr with hr | hr
        · subst hr
          have hs := hrec (k, v) (by simp) inner h1
          repeat' first | exact hs | exact SafeHtml.esc _ | (apply SafeHtml.lit ; decide) | apply SafeHtml.app
        · exact ih (fun q hq => hrec q (by simp [hq])) rows h2 r hr

theorem renderItems_safe (xs : List Json)
    (hrec : ∀ x ∈ xs, ∀ s, render_structured_data x = .ok s → SafeHtml s) :
    ∀ rs, renderItems xs = .ok rs → ∀ r ∈ rs, SafeHtml r := by
  induction xs with
  | nil =>
    intro rs h r hr
    simp only [renderItems, pure, Except.pure, Except.ok.injEq] at h
    subst h; simp at hr
  | cons x rest ih =>
    intro rs h r hr
    simp only [renderItems, bind, Except.bind] at h
    cases h1 : render_structured_data x with
    | error e => rw [h1] at h; simp at h
    | ok inner =>
      rw [h1] at h
      cases h2 : renderItems rest with
      | error e => rw [h2] at h; simp at h
      | ok items =>
        rw [h2] at h
        simp only [pure, Except.pure, Except.ok.injEq] at h
        subst h
        rcases List.mem_cons.mp hr with hr | hr
        · subst hr
          have hs := hrec x (by simp) inner h1
          repeat' first | exact hs | exact SafeHtml.esc _ | (apply SafeHtml.lit ; decide) | apply SafeHtml.app
        · exact ih (fun q hq => hrec q (by simp [hq])) items h2 r hr

theorem render_structured_data_safe :
    ∀ v s, render_structured_data v = .ok s → SafeHtml s := by
  have main : ∀ n v, sizeOf v ≤ n → ∀ s, render_structured_data v = .ok s → SafeHtml s := by
    intro n
    induction n using Nat.strong_induction_on with
    | _ n IH =>
      intro v hv s hs
      cases v with
      | obj kvs =>
        simp only [render_structured_data] at hs
        split at hs
        · exact render_code_block_safe kvs s hs
        · simp only [bind, Except.bind] at hs
          cases hr : renderRows kvs with
          | error e => rw [hr] at hs; simp at hs
          | ok rows =>
            rw [hr] at hs
            simp only [pure, Except.pure, Except.ok.injEq] at hs
            have hrows : ∀ r ∈ rows, SafeHtml r := by
              refine renderRows_safe kvs ?_ rows hr
              intro p hp s' hs'
              have hlt : sizeOf p.2 < sizeOf (Json.obj kvs) := by
                have h1 := List.sizeOf_lt_of_mem hp
                obtain ⟨k2, v2⟩ := p
                simp only [Json.obj.sizeOf_spec]
                simp only [Prod.mk.sizeOf_spec] at h1
                omega
              rcases Nat.lt_or_ge (sizeOf p.2) n with hn | hn
              · exact IH (sizeOf p.2) (lt_of_lt_of_le hlt hv) p.2 le_rfl s' hs'
              · exact absurd (lt_of_lt_of_le hlt hv) (by omega)
            subst hs
            have hmid := safeHtml_strJoin rows hrows
            repeat' first | exact hmid | exact SafeHtml.esc _ | (apply SafeHtml.lit ; decide) | apply SafeHtml.app
      | arr xs =>
        simp only [render_structured_data, bind, Except.bind] at hs
        cases hr : renderItems xs with
        | error e => rw [hr] at hs; simp at hs
        | ok items =>
          rw [hr] at hs
          simp only [pure, Except.pure, Except.ok.injEq] at hs
          have hitems : ∀ r ∈ items, SafeHtml r := by
            refine renderItems_safe xs ?_ items hr
            intro x hx s' hs'
            have hlt : sizeOf x < sizeOf (Json.arr xs) := by
              have h1 := List.sizeOf_lt_of_mem hx
              simp only [Json.arr.sizeOf_spec]
              omega
            exact IH (sizeOf x) (lt_of_lt_of_le hlt hv) x le_rfl s' hs'
          subst hs
          have hmid := safeHtml_strJoin items hitems
          repeat' first | exact hmid | exact SafeHtml.esc _ | (apply SafeHtml.lit ; decide) | apply SafeHtml.app
      | null =>
        simp only [render_structured_data, pure, Except.pure, Except.ok.injEq] at hs
        subst hs; exact render_scalar_safe _
      | bool b =>
        simp only [render_structured_data, pure, Except.pure, Except.ok.injEq] at hs
        subst hs; exact render_scalar_safe _
      | num m =>
        simp only [render_structured_data, pure, Except.pure, Except.ok.injEq] at hs
        subst hs; exact render_scalar_safe _
      | str t =>
        simp only [render_structured_data, pure, Except.pure, Except.ok.injEq] at hs
        subst hs; exact render_scalar_safe _
  intro v s hs
  exact main (sizeOf v) v le_rfl s hs

theorem escHtmlChar_atom (c : Char) :
    escHtmlChar c ∈ escEntities
      ∨ ∃ c', escHtmlChar c = String.mk [c'] ∧ c' ∉ ['&', '<', '>', quotChar, aposChar] := by
  by_cases h1 : c = '&'
  · subst h1; exact Or.inl (by decide)
  by_cases h2 : c = '<'
  · subst h2; exact Or.inl (by decide)
  by_cases h3 : c = '>'
  · subst h3; exact Or.inl (by decide)
  by_cases h4 : c = quotChar
  · subst h4; exact Or.inl (by decide)
  by_cases h5 : c = aposChar
  · subst h5; exact Or.inl (by decide)
  · refine Or.inr ⟨c, ?_, by simp [h1, h2, h3, h4, h5]⟩
    simp [escHtmlChar, h1, h2, h3, h4, h5]

/-- C2: for every input value, the recursive structured-data renderer and
the scalar renderer HTML-escape every string leaf before embedding it:
any fragment they return is built exclusively from fixed markup literals
and `htmlEscape` images, and `htmlEscape` output consists only of the
five entity atoms and single characters that are none of `<`, `>`, `&`,
quote or apostrophe — so `<`, `>` and `&` occurring in input strings
never appear unescaped in the returned HTML fragment. -/
theorem C2_renderers_escape_leaves :
    (∀ v s, render_structured_data v = .ok s → SafeHtml s)
    ∧ (∀ v, SafeHtml (render_scalar v))
    ∧ (∀ u, htmlEscape u = strJoin (u.data.map escHtmlChar)
        ∧ ∀ a ∈ u.data.map escHtmlChar,
            a ∈ escEntities ∨ ∃ c, a = String.mk [c] ∧ c ∉ ['&', '<', '>', quotChar, aposChar]) :=
  ⟨render_structured_data_safe, render_scalar_safe,
   fun u => ⟨rfl, fun a ha => by
     obtain ⟨c, _, rfl⟩ := List.mem_map.mp ha
     exact escHtmlChar_atom c⟩⟩

/-- Witness for C2 at concrete inputs: the structured renderer's output
on `null` and the scalar renderer's output on a raw `<script>` string are
safe, and the escape of `<script>` decomposes into safe atoms. -/
theorem C2_renderers_escape_leaves_witness :
    SafeHtml "<em>null</em>"
    ∧ SafeHtml (render_scalar (.str "<script>"))
    ∧ (htmlEscape "<script>" = strJoin (("<script>".data).map escHtmlChar)) :=
  ⟨C2_renderers_escape_leaves.1 .null "<em>null</em>" rfl,
   C2_renderers_escape_leaves.2.1 (.str "<script>"),
   (C2_renderers_escape_leaves.2.2 "<script>").1⟩

/-- C9 counterexample: a map of type `code` whose `code` field is present
(the empty string) renders the `content` field's value `X`, not the
`code` field's value -- Python `or` skips falsy values, so "present"
does not imply "rendered". -/
theorem C9_counterexample :
    render_code_block [("type", .str "code"), ("code", .str ""), ("content", .str "X")]
        = .ok "<div class=\"code-block\"><pre><code>X</code></pre></div>"
    ∧ render_code_block [("type", .str "code"), ("code", .str ""), ("content", .str "X")]
        ≠ .ok "<div class=\"code-block\"><pre><code></code></pre></div>" := by
  have hx : render_code_block [("type", .str "code"), ("code", .str ""), ("content", .str "X")]
      = .ok "<div class=\"code-block\"><pre><code>X</code></pre></div>" := rfl
  refine ⟨hx, fun h => ?_⟩
  rw [hx] at h
  simp only [Except.ok.injEq] at h
  exact absurd h (by decide)

/-- C9 (amended): a `type = code` map dispatches to the code-block
renderer; the rendered body text is the first Python-truthy of the
`code`, `content`, `text` fields (stringified), defaulting to the empty
string when all are absent or falsy; in particular a *truthy* `code`
value is always the one rendered, while a present-but-falsy `code` value
is skipped in favor of a truthy `content` value. -/
theorem C9_code_block_field_priority :
    (∀ kvs, isStrEq ((objGet? kvs "type").getD .null) "code" = true →
        render_structured_data (.obj kvs) = render_code_block kvs)
    ∧ (∀ kvs s, render_code_block kvs = .ok s →
        ∃ header, s = "<div class=\"code-block\">" ++ header ++ "<pre><code>"
          ++ htmlEscape (pyStr (codeBodyValue kvs)) ++ "</code></pre></div>")
    ∧ (∀ kvs cj, objGet? kvs "code" = some cj → truthy cj = true → codeBodyValue kvs = cj)
    ∧ (∀ kvs cv, truthy ((objGet? kvs "code").getD .null) = false →
        objGet? kvs "content" = some cv → truthy cv = true → codeBodyValue kvs = cv)
    ∧ (∀ kvs, truthy ((objGet? kvs "code").getD .null) = false →
        truthy ((objGet? kvs "content").getD .null) = false →
        truthy ((objGet? kvs "text").getD .null) = false →
        pyStr (codeBodyValue kvs) = "") := by
  refine ⟨?_, ?_, ?_, ?_, ?_⟩
  · intro kvs h
    simp [render_structured_data, h]
  · intro kvs s h
    unfold render_code_block at h
    simp only [bind, Except.bind, pure, Except.pure] at h
    split at h
    · split at h
      · exact absurd h (by simp)
      · simp only [Except.ok.injEq] at h
        exact ⟨_, h.symm⟩
    · simp only [Except.ok.injEq] at h
      exact ⟨"", h.symm⟩
  · intro kvs cj h ht
    simp [codeBodyValue, h, pyOr, ht]
  · intro kvs cv h hc ht
    simp [codeBodyValue, pyOr, h, hc, ht]
  · intro kvs h1 h2 h3
    have hv : codeBodyValue kvs = .str "" := by simp [codeBodyValue, pyOr, h1, h2, h3]
    rw [hv]
    rfl

/-- Witness for C9 at concrete inputs: dispatch on a `type = code` map, a
truthy `code` value is rendered, a null `code` falls through to
`content`, an absent triple defaults to the empty body, and the rendered
fragment has the code-block shape. -/
theorem C9_code_block_field_priority_witness :
    render_structured_data (.obj [("type", .str "code"), ("code", .str "Y")])
      = render_code_block [("type", .str "code"), ("code", .str "Y")]
    ∧ codeBodyValue [("code", .str "Y")] = .str "Y"
    ∧ codeBodyValue [("code", .null), ("content", .str "Z")] = .str "Z"
    ∧ pyStr (codeBodyValue [("x", .num 1)]) = ""
    ∧ ∃ header, "<div class=\"code-block\"><pre><code></code></pre></div>"
        = "<div class=\"code-block\">" ++ header ++ "<pre><code>"
          ++ htmlEscape (pyStr (codeBodyValue ([] : List (String × Json)))) ++ "</code></pre></div>" :=
  ⟨C9_code_block_field_priority.1 _ rfl,
   C9_code_block_field_priority.2.2.1 [("code", .str "Y")] (.str "Y") rfl rfl,
   C9_code_block_field_priority.2.2.2.1 [("code", .null), ("content", .str "Z")] (.str "Z") rfl rfl rfl,
   C9_code_block_field_priority.2.2.2.2 [("x", .num 1)] rfl rfl rfl,
   C9_code_block_field_priority.2.1 [] _ rfl⟩

/-- C6: for a matching upload call with dict-shaped parsed arguments, a
list-valued `flags` extracts to its elements stringified and
newline-joined; a null or absent `flags` (resp. `code`) extracts to the
empty string. -/
theorem C6_flags_and_code_extraction :
    (∀ kvs xs, objGet? kvs "flags" = some (.arr xs) →
        uploadFlags kvs = String.intercalate "\n" (xs.map pyStr))
    ∧ (∀ kvs, (objGet? kvs "flags" = none ∨ objGet? kvs "flags" = some .null) →
        uploadFlags kvs = "")
    ∧ (∀ kvs, (objGet? kvs "code" = none ∨ objGet? kvs "code" = some .null) →
        uploadCode kvs = "") := by
  refine ⟨?_, ?_, ?_⟩
  · intro kvs xs h
    simp [uploadFlags, h]
  · intro kvs h
    rcases h with h | h <;> simp [uploadFlags, h] <;> rfl
  · intro kvs h
    rcases h with h | h <;> simp [uploadCode, h] <;> rfl

/-- Witness for C6 at concrete inputs, including the spec's
`["-O2", "-Wall"]` example. -/
theorem C6_flags_and_code_extraction_witness :
    uploadFlags [("flags", .arr [.str "-O2", .str "-Wall"])] = "-O2\n-Wall"
    ∧ uploadFlags [("flags", .null)] = ""
    ∧ uploadCode [("k", .num 1)] = "" :=
  ⟨(C6_flags_and_code_extraction.1 [("flags", .arr [.str "-O2", .str "-Wall"])]
      [.str "-O2", .str "-Wall"] rfl).trans rfl,
   C6_flags_and_code_extraction.2.1 [("flags", .null)] (Or.inr rfl),
   C6_flags_and_code_extraction.2.2 [("k", .num 1)] (Or.inl rfl)⟩

theorem extractFrom_spec (d : String → Except String Json) :
    ∀ (ls : List String) (n : Nat) (acc us : List RunCodeUpload),
      extractFrom d n acc ls = .ok us →
      ∃ tail, us = acc ++ tail
        ∧ (∀ j (hj : j < tail.length), (tail.get ⟨j, hj⟩).index = acc.length + j + 1)
        ∧ List.Pairwise (fun a b => a.lineno < b.lineno) tail
        ∧ (∀ u ∈ tail, n ≤ u.lineno) := by
  intro ls
  induction ls with
  | nil =>
    intro n acc us h
    simp only [extractFrom] at h
    cases h
    exact ⟨[], by simp, fun j hj => by simp at hj, by simp, by simp⟩
  | cons l ls ih =>
    intro n acc us h
    simp only [extractFrom] at h
    split at h
    · obtain ⟨tail, h1, h2, h3, h4⟩ := ih (n + 1) acc us h
      exact ⟨tail, h1, h2, h3, fun u hu => le_trans (by omega) (h4 u hu)⟩
    · split at h
      · obtain ⟨tail, h1, h2, h3, h4⟩ := ih (n + 1) acc us h
        exact ⟨tail, h1, h2, h3, fun u hu => le_trans (by omega) (h4 u hu)⟩
      · rename_i record hrec
        simp only [bind, Except.bind] at h
        cases hm : matchUpload d record with
        | error e => rw [hm] at h; simp at h
        | ok m =>
          rw [hm] at h
          cases m with
          | none =>
            obtain ⟨tail, h1, h2, h3, h4⟩ := ih (n + 1) acc us h
            exact ⟨tail, h1, h2, h3, fun u hu => le_trans (by omega) (h4 u hu)⟩
          | some kt =>
            obtain ⟨kvs, ts⟩ := kt
            obtain ⟨tail, h1, h2, h3, h4⟩ := ih (n + 1) _ us h
            refine ⟨{ index := acc.length + 1, timestamp := ts, lineno := n,
                      code := uploadCode kvs, flags := uploadFlags kvs } :: tail,
                    by simpa using h1, ?_, ?_, ?_⟩
            · intro j hj
              cases j with
              | zero => simp
              | succ j =>
                have hj' : j < tail.length := by simpa using hj
                have := h2 j hj'
                simp only [List.length_append, List.length_cons, List.length_nil] at this
                simp only [List.get_cons_succ]
                rw [this]
                omega
            · refine List.Pairwise.cons ?_ h3
              intro b hb
              have := h4 b hb
              simp only []
              omega
            · intro u hu
              rcases List.mem_cons.mp hu with hu | hu
              · subst hu; simp
              · exact le_trans (by omega) (h4 u hu)

/-- C5: for every input log (and every decoder), the Upload Snapshot list
returned by the extractor has sequence indices exactly 1, 2, 3, ...,
assigned in file order: the `i`-th snapshot has index `i+1`, and the
snapshots' source line numbers are strictly increasing, regardless of how
many non-matching or malformed records are interleaved. -/
theorem C5_upload_indices_contiguous :
    ∀ d lines us, extract_run_code_uploads d lines = .ok us →
      (∀ i (hi : i < us.length), (us.get ⟨i, hi⟩).index = i + 1)
      ∧ List.Pairwise (fun a b => a.lineno < b.lineno) us := by
  intro d lines us h
  obtain ⟨tail, h1, h2, h3, _⟩ := extractFrom_spec d lines 1 [] us h
  simp only [List.nil_append] at h1
  subst h1
  exact ⟨fun i hi => by simpa using h2 i hi, h3⟩

/-- A decoder used by witnesses: every line fails to decode with a fixed
message. -/
def decFail : String → Except String Json := fun _ => .error "bad json"

/-- A dumper used by witnesses (the dumper's output never matters to any
claim). -/
def dumps0 : Json → String := fun _ => "\x7b\x7d"

/-- A record whose line matches the upload extractor's target pattern,
used by witnesses. -/
def uploadRecord : Json :=
  .obj [("type", .str "response_item"), ("timestamp", .str "T"),
        ("payload", .obj [("type", .str "function_call"),
                          ("name", .str "mcp__kernelmcp__vm_compile_c_and_upload"),
                          ("arguments", .obj [("code", .str "abc")])])]

/-- A decoder used by witnesses: the line `U` decodes to `uploadRecord`,
every other line fails to decode. -/
def decC5 : String → Except String Json :=
  fun s => if s = "U" then .ok uploadRecord else .error "bad"

/-- The extraction result `decC5` produces on the witness log. -/
def usC5 : List RunCodeUpload :=
  [{ index := 1, timestamp := .str "T", lineno := 1, code := "abc", flags := "" },
   { index := 2, timestamp := .str "T", lineno := 3, code := "abc", flags := "" }]

/-- Witness for C5 on a concrete three-line log whose middle line is
malformed: indices are 1, 2 and line numbers increase. -/
theorem C5_upload_indices_contiguous_witness :
    extract_run_code_uploads decC5 ["U", "junk", "U"] = .ok usC5
    ∧ (usC5.get ⟨0, by decide⟩).index = 1
    ∧ (usC5.get ⟨1, by decide⟩).index = 2
    ∧ List.Pairwise (fun a b => a.lineno < b.lineno) usC5 :=
  ⟨rfl,
   (C5_upload_indices_contiguous decC5 ["U", "junk", "U"] usC5 rfl).1 0 (by decide),
   (C5_upload_indices_contiguous decC5 ["U", "junk", "U"] usC5 rfl).1 1 (by decide),
   (C5_upload_indices_contiguous decC5 ["U", "junk", "U"] usC5 rfl).2⟩

/-- C10: a non-empty line that is not valid JSON is silently skipped by
the upload extractor -- it yields no Upload Snapshot and no error, and
extraction continues on the remaining lines exactly as if only the line
counter advanced -- while the timeline loader, on the same line, prepends
exactly one error-styled Entry to the remaining lines' entries. -/
theorem C10_extractor_skips_malformed :
    ∀ d dp n acc bad rest e, pyStrip bad ≠ "" → d (pyStrip bad) = .error e →
      extractFrom d n acc (bad :: rest) = extractFrom d (n + 1) acc rest
      ∧ loadEntriesFrom dp d n (bad :: rest)
          = (loadEntriesFrom dp d (n + 1) rest).map (fun es => mkMalformedEntry e n :: es) := by
  intro d dp n acc bad rest e hne hd
  constructor
  · simp [extractFrom, hne, hd]
  · simp [loadEntriesFrom, hne, hd]

/-- Witness for C10 on a concrete malformed line. -/
theorem C10_extractor_skips_malformed_witness :
    extractFrom decFail 1 [] ["oops"] = extractFrom decFail 2 [] []
    ∧ loadEntriesFrom dumps0 decFail 1 ["oops"]
        = (loadEntriesFrom dumps0 decFail 2 []).map
            (fun es => mkMalformedEntry "bad json" 1 :: es) :=
  C10_extractor_skips_malformed decFail dumps0 1 [] "oops" [] "bad json" (by decide) rfl

/-- C4: a non-empty line that is not valid JSON produces exactly one
error-styled Entry (error-styled class, `error` type tag, the decode
failure message in a `<pre>` body, at that line's number), prepended to
exactly the entries the remaining lines produce; and replacing the
malformed line by any well-formed line leaves the remaining lines'
processing identical (same recursive call on `rest` at line `n + 1`), so
loading never aborts because of a malformed line. -/
theorem C4_malformed_line_isolated :
    ∀ dp d n bad rest e, pyStrip bad ≠ "" → d (pyStrip bad) = .error e →
      loadEntriesFrom dp d n (bad :: rest)
          = (loadEntriesFrom dp d (n + 1) rest).map (fun es => mkMalformedEntry e n :: es)
      ∧ (mkMalformedEntry e n).css_class = "entry-error"
      ∧ (mkMalformedEntry e n).raw_type = .str "error"
      ∧ (mkMalformedEntry e n).body_html = "<pre>" ++ htmlEscape e ++ "</pre>"
      ∧ (mkMalformedEntry e n).lineno = n
      ∧ (∀ good rec, pyStrip good ≠ "" → d (pyStrip good) = .ok rec →
          loadEntriesFrom dp d n (good :: rest) = do
            let e? ← convert_record dp d rec n
            let es ← loadEntriesFrom dp d (n + 1) rest
            pure (e?.toList ++ es)) := by
  intro dp d n bad rest e hne hd
  refine ⟨by simp [loadEntriesFrom, hne, hd], rfl, rfl, rfl, rfl, ?_⟩
  intro good rec hgne hgd
  simp [loadEntriesFrom, hgne, hgd]

/-- A decoder used by the C4 witness: the line `good` decodes to an
empty record, every other line fails with message `boom`. -/
def decC4 : String → Except String Json :=
  fun s => if s = "good" then .ok (.obj []) else .error "boom"

/-- Witness for C4 on a concrete two-line log: the malformed first line
contributes exactly its error Entry, and a well-formed replacement leaves
the second line's processing untouched. -/
theorem C4_malformed_line_isolated_witness :
    loadEntriesFrom dumps0 decC4 1 ["nope", "good"]
        = (loadEntriesFrom dumps0 decC4 2 ["good"]).map
            (fun es => mkMalformedEntry "boom" 1 :: es)
    ∧ (mkMalformedEntry "boom" 1).css_class = "entry-error"
    ∧ (loadEntriesFrom dumps0 decC4 1 ["good", "good"] = do
        let e? ← convert_record dumps0 decC4 (.obj []) 1
        let es ← loadEntriesFrom dumps0 decC4 2 ["good"]
        pure (e?.toList ++ es)) :=
  ⟨(C4_malformed_line_isolated dumps0 decC4 1 "nope" ["good"] "boom" (by decide) rfl).1,
   (C4_malformed_line_isolated dumps0 decC4 1 "nope" ["good"] "boom" (by decide) rfl).2.1,
   (C4_malformed_line_isolated dumps0 decC4 1 "nope" ["good"] "boom" (by decide) rfl).2.2.2.2.2
     "good" (.obj []) (by decide) rfl⟩

theorem mapM_format_text_block :
    ∀ (ts : List Json), (∀ t ∈ ts, ∃ s, t = .str s) →
      ∃ parts, ts.mapM format_text_block = .ok parts := by
  intro ts
  induction ts with
  | nil => exact fun _ => ⟨[], rfl⟩
  | cons t ts ih =>
    intro h
    obtain ⟨s, hs⟩ := h t (by simp)
    obtain ⟨parts, hp⟩ := ih (fun u hu => h u (by simp [hu]))
    subst hs
    refine ⟨(htmlEscape s).replace "\n" "<br>" :: parts, ?_⟩
    have h1 : format_text_block (.str s) = .ok ((htmlEscape s).replace "\n" "<br>") := rfl
    rw [List.mapM_cons, h1, hp]
    rfl

/-- C3 counterexample: a `response_item`/`message` record whose single
content chunk has the truthy non-string text value `5` yields one
extractable chunk by the code's own gate, yet the renderer raises
`AttributeError` in `html.escape` instead of producing exactly one
Entry. -/
theorem C3_counterexample :
    extract_text_chunks (.arr [.obj [("type", .str "input_text"), ("text", .num 5)]])
        = .ok [.num 5]
    ∧ convert_response_item dumps0 decFail
        (.obj [("payload", .obj [("type", .str "message"),
          ("content", .arr [.obj [("type", .str "input_text"), ("text", .num 5)]])])]) 1
        = .error "AttributeError" :=
  ⟨rfl, rfl⟩

/-- C3 (amended): for every `response_item` record with payload subtype
`message`: if the content yields zero extractable text chunks the
renderer produces no Entry; if it yields at least one extractable chunk
and every extracted text value is a string, the renderer produces exactly
one Entry (a truthy non-string text value instead raises a type error in
escaping, per the counterexample). -/
theorem C3_message_entry_count :
    ∀ dp d rkvs pkvs lineno texts,
      pyOr ((objGet? rkvs "payload").getD .null) (.obj []) = .obj pkvs →
      objGet? pkvs "type" = some (.str "message") →
      extract_text_chunks (pyOr ((objGet? pkvs "content").getD .null) (.arr [])) = .ok texts →
      (texts = [] → convert_response_item dp d (.obj rkvs) lineno = .ok none)
      ∧ (texts ≠ [] → (∀ t ∈ texts, ∃ s, t = .str s) →
          ∃ e, convert_response_item dp d (.obj rkvs) lineno = .ok (some e)) := by
  intro dp d rkvs pkvs lineno texts hpay hsub hext
  have hunf : convert_response_item dp d (.obj rkvs) lineno = (do
      if texts.isEmpty then pure none
      else do
        let parts ← texts.mapM format_text_block
        pure (some
          { timestamp := (objGet? rkvs "timestamp").getD (.str "unknown")
            label := "Message · " ++ pyStr ((objGet? pkvs "role").getD (.str "n/a"))
            body_html := String.intercalate "<hr>" parts
            css_class := if isStrEq ((objGet? pkvs "role").getD (.str "n/a")) "user"
              then "entry-user" else "entry-assistant"
            raw_type := .str "response_item/message"
            lineno := lineno })) := by
    simp only [convert_response_item, pyGet, pyGetD, bind, Except.bind]
    rw [hpay]
    simp only [pyGetOpt]
    rw [hsub]
    have hmsg : isStrEq ((some (Json.str "message")).getD Json.null) "message" = true := rfl
    simp only [hmsg, if_true, pyGet, pyGetD, bind, Except.bind]
    rw [hext]
  constructor
  · intro h
    subst h
    simp only [hunf, List.isEmpty_nil, if_true]
    rfl
  · intro hne hstr
    obtain ⟨parts, hparts⟩ := mapM_format_text_block texts hstr
    have hnem : texts.isEmpty = false := by
      cases texts with
      | nil => exact absurd rfl hne
      | cons a b => rfl
    rw [hunf]
    simp only [hnem, Bool.false_eq_true, if_false, bind, Except.bind, hparts, pure, Except.pure]
    exact ⟨_, rfl⟩

/-- Witness for C3 at concrete records: an empty content list produces no
Entry, and a single string text chunk produces exactly one Entry. -/
theorem C3_message_entry_count_witness :
    convert_response_item dumps0 decFail
        (.obj [("payload", .obj [("type", .str "message"), ("content", .arr [])])]) 1 = .ok none
    ∧ ∃ e, convert_response_item dumps0 decFail
        (.obj [("payload", .obj [("type", .str "message"),
          ("content", .arr [.obj [("type", .str "input_text"), ("text", .str "hi")]])])]) 1
        = .ok (some e) :=
  ⟨(C3_message_entry_count dumps0 decFail
      [("payload", .obj [("type", .str "message"), ("content", .arr [])])]
      [("type", .str "message"), ("content", .arr [])] 1 [] rfl rfl rfl).1 rfl,
   (C3_message_entry_count dumps0 decFail
      [("payload", .obj [("type", .str "message"),
        ("content", .arr [.obj [("type", .str "input_text"), ("text", .str "hi")]])])]
      [("type", .str "message"),
        ("content", .arr [.obj [("type", .str "input_text"), ("text", .str "hi")]])]
      1 [.str "hi"] rfl rfl rfl).2
      (by simp) (by intro t ht; simp only [List.mem_singleton] at ht; exact ⟨"hi", ht⟩)⟩

theorem convert_ri_fncall_eq (dp : Json → String) (d : String → Except String Json)
    (rkvs pkvs : List (String × Json)) (lineno : Nat)
    (hpay : pyOr ((objGet? rkvs "payload").getD .null) (.obj []) = .obj pkvs)
    (hsub : objGet? pkvs "type" = some (.str "function_call")) :
    convert_response_item dp d (.obj rkvs) lineno = (do
      let argsHtml ←
        match try_parse_json d (pyOr ((objGet? pkvs "arguments").getD .null) (.str "")) with
        | some p => render_structured_data p
        | none =>
          if truthy (pyOr ((objGet? pkvs "arguments").getD .null) (.str "")) then
            pure (format_pre (pyOr ((objGet? pkvs "arguments").getD .null) (.str "")))
          else pure ""
      let nameEsc ← pyEscape ((objGet? pkvs "name").getD (.str "unknown"))
      let callEsc ← pyEscape ((objGet? pkvs "call_id").getD (.str "n/a"))
      pure (some
        { timestamp := (objGet? rkvs "timestamp").getD (.str "unknown")
          label := "Function call"
          body_html := "<div><strong>Call:</strong> " ++ nameEsc ++ "</div>"
            ++ "<div><strong>call_id:</strong> " ++ callEsc ++ "</div>"
            ++ ((if isStrEq ((objGet? pkvs "name").getD (.str "unknown")) "update_plan" then
                  render_plan_board (try_parse_json d
                    (pyOr ((objGet? pkvs "arguments").getD .null) (.str "")))
                else none).getD "")
            ++ argsHtml
          css_class := "entry-tool"
          raw_type := .str "response_item/function_call"
          lineno := lineno })) := by
  simp only [convert_response_item, pyGet, pyGetD, bind, Except.bind]
  rw [hpay]
  simp only [pyGetOpt]
  rw [hsub]
  have h1 : isStrEq ((some (Json.str "function_call")).getD Json.null) "message" = false := rfl
  have h2 : isStrEq ((some (Json.str "function_call")).getD Json.null) "function_call" = true := rfl
  simp only [h1, Bool.false_eq_true, if_false, h2, if_true, pyGet, pyGetD, bind, Except.bind]

set_option maxRecDepth 10000 in
/-- C7 counterexample: (i) a `function_call` record naming `update_plan`
whose arguments parse as the JSON map `{"x": 1}` produces an Entry whose
body contains no plan board at all (no `plan-board` section is emitted
when the parsed arguments carry no non-empty plan list); (ii) a
`function_call` record with absent arguments does not render any raw
preformatted text either, although absent arguments do not parse as
JSON. -/
theorem C7_counterexample :
    (convert_response_item dumps0 decFail
        (.obj [("payload", .obj [("type", .str "function_call"), ("name", .str "update_plan"),
          ("call_id", .str "c1"), ("arguments", .obj [("x", .num 1)])])]) 1).map
        (fun o => o.map (fun e => subStr "plan-board" e.body_html)) = .ok (some false)
    ∧ try_parse_json decFail (.obj [("x", .num 1)]) = some (.obj [("x", .num 1)])
    ∧ (convert_response_item dumps0 decFail
        (.obj [("payload", .obj [("type", .str "function_call"), ("name", .str "f"),
          ("call_id", .str "c1")])]) 1).map
        (fun o => o.map (fun e => subStr "<pre>" e.body_html)) = .ok (some false) :=
  ⟨rfl, rfl, rfl⟩

/-- C7 (amended): for every `response_item`/`function_call` record whose
conversion yields an Entry: when the call name is the designated
plan-update function and the parsed arguments yield a plan board (a dict
containing a `plan` list with at least one dict-shaped step), the body
renders that plan board, which holds one list item per dict-shaped step;
whenever the arguments parse as JSON the body renders them as structured
data (in addition to any plan board); when they do not parse and are
Python-truthy the body renders them as raw preformatted text. A
plan-update call whose arguments yield no plan board falls back to the
structured rendering alone, per the counterexample. -/
theorem C7_function_call_rendering :
    (∀ dp d rkvs pkvs lineno e,
      pyOr ((objGet? rkvs "payload").getD .null) (.obj []) = .obj pkvs →
      objGet? pkvs "type" = some (.str "function_call") →
      convert_response_item dp d (.obj rkvs) lineno = .ok (some e) →
      (∀ ph, isStrEq ((objGet? pkvs "name").getD (.str "unknown")) "update_plan" = true →
          render_plan_board (try_parse_json d
            (pyOr ((objGet? pkvs "arguments").getD .null) (.str ""))) = some ph →
          StrContains e.body_html ph)
      ∧ (∀ p, try_parse_json d (pyOr ((objGet? pkvs "arguments").getD .null) (.str "")) = some p →
          ∃ s, render_structured_data p = .ok s ∧ StrContains e.body_html s)
      ∧ (try_parse_json d (pyOr ((objGet? pkvs "arguments").getD .null) (.str "")) = none →
          truthy (pyOr ((objGet? pkvs "arguments").getD .null) (.str "")) = true →
          StrContains e.body_html
            (format_pre (pyOr ((objGet? pkvs "arguments").getD .null) (.str "")))))
    ∧ (∀ kvs ph, render_plan_board (some (.obj kvs)) = some ph →
        ∃ plan, objGet? kvs "plan" = some (.arr plan)
          ∧ plan.filterMap planItem ≠ []
          ∧ ∃ expl, ph = "<section class=\"plan-board\"><h4>Plan</h4>" ++ expl
              ++ "<ol>" ++ strJoin (plan.filterMap planItem) ++ "</ol></section>")
    ∧ (∀ plan : List Json, (plan.filterMap planItem).length
        = plan.countP (fun j => match j with | .obj _ => true | _ => false)) := by
  refine ⟨?_, ?_, ?_⟩
  · intro dp d rkvs pkvs lineno e hpay hsub hconv
    rw [convert_ri_fncall_eq dp d rkvs pkvs lineno hpay hsub] at hconv
    simp only [bind, Except.bind] at hconv
    cases hparse : try_parse_json d (pyOr ((objGet? pkvs "arguments").getD .null) (.str "")) with
    | some p =>
      rw [hparse] at hconv
      dsimp only [] at hconv
      cases hR : render_structured_data p with
      | error m => rw [hR] at hconv; simp at hconv
      | ok s =>
        rw [hR] at hconv
        cases hN : pyEscape ((objGet? pkvs "name").getD (.str "unknown")) with
        | error m => rw [hN] at hconv; simp at hconv
        | ok ne =>
          rw [hN] at hconv
          cases hC : pyEscape ((objGet? pkvs "call_id").getD (.str "n/a")) with
          | error m => rw [hC] at hconv; simp at hconv
          | ok ce =>
            rw [hC] at hconv
            simp only [pure, Except.pure, Except.ok.injEq, Option.some.injEq] at hconv
            subst hconv
            refine ⟨?_, ?_, ?_⟩
            · intro ph hname hboard
              simp only [hname, if_true, hboard, Option.getD_some]
              exact ⟨"<div><strong>Call:</strong> " ++ ne ++ "</div>"
                ++ "<div><strong>call_id:</strong> " ++ ce ++ "</div>", s, rfl⟩
            · intro p' hp'
              cases hp'
              refine ⟨s, hR, ?_⟩
              refine ⟨"<div><strong>Call:</strong> " ++ ne ++ "</div>"
                ++ "<div><strong>call_id:</strong> " ++ ce ++ "</div>"
                ++ ((if isStrEq ((objGet? pkvs "name").getD (.str "unknown")) "update_plan" then
                      render_plan_board (some p) else none).getD ""), "", ?_⟩
              rw [String.append_empty]
            · intro hnone
              cases hnone
    | none =>
      rw [hparse] at hconv
      dsimp only [] at hconv
      by_cases htr : truthy (pyOr ((objGet? pkvs "arguments").getD .null) (.str "")) = true
      · rw [if_pos htr] at hconv
        simp only [pure, Except.pure] at hconv
        cases hN : pyEscape ((objGet? pkvs "name").getD (.str "unknown")) with
        | error m => rw [hN] at hconv; simp at hconv
        | ok ne =>
          rw [hN] at hconv
          cases hC : pyEscape ((objGet? pkvs "call_id").getD (.str "n/a")) with
          | error m => rw [hC] at hconv; simp at hconv
          | ok ce =>
            rw [hC] at hconv
            simp only [pure, Except.pure, Except.ok.injEq, Option.some.injEq] at hconv
            subst hconv
            refine ⟨?_, ?_, ?_⟩
            · intro ph hname hboard
              simp only [render_plan_board] at hboard
              exact Option.noConfusion hboard
            · intro p' hp'
              cases hp'
            · intro _ _
              refine ⟨"<div><strong>Call:</strong> " ++ ne ++ "</div>"
                ++ "<div><strong>call_id:</strong> " ++ ce ++ "</div>"
                ++ ((if isStrEq ((objGet? pkvs "name").getD (.str "unknown")) "update_plan" then
                      render_plan_board none else none).getD ""), "", ?_⟩
              rw [String.append_empty]
      · rw [if_neg htr] at hconv
        simp only [pure, Except.pure] at hconv
        cases hN : pyEscape ((objGet? pkvs "name").getD (.str "unknown")) with
        | error m => rw [hN] at hconv; simp at hconv
        | ok ne =>
          rw [hN] at hconv
          cases hC : pyEscape ((objGet? pkvs "call_id").getD (.str "n/a")) with
          | error m => rw [hC] at hconv; simp at hconv
          | ok ce =>
            rw [hC] at hconv
            simp only [pure, Except.pure, Except.ok.injEq, Option.some.injEq] at hconv
            subst hconv
            refine ⟨?_, ?_, ?_⟩
            · intro ph hname hboard
              simp only [render_plan_board] at hboard
              exact Option.noConfusion hboard
            · intro p' hp'
              cases hp'
            · intro _ htr2
              exact absurd htr2 htr
  · intro kvs ph h
    simp only [render_plan_board] at h
    cases hp : objGet? kvs "plan" with
    | none => rw [hp] at h; simp at h
    | some pv =>
      rw [hp] at h
      cases pv with
      | arr plan =>
        dsimp only [] at h
        by_cases he : (plan.filterMap planItem).isEmpty = true
        · rw [if_pos he] at h; simp at h
        · rw [if_neg he] at h
          simp only [Option.some.injEq] at h
          refine ⟨plan, rfl, by simpa [List.isEmpty_iff] using he, _, h.symm⟩
      | null => simp at h
      | bool b => simp at h
      | num m => simp at h
      | str t => simp at h
      | obj o => simp at h
  · intro plan
    induction plan with
    | nil => rfl
    | cons x t ih =>
      cases x <;> simp [planItem, List.countP_cons, ih]

/-- The payload fields of the C7 witness record: an `update_plan` call
with a one-step plan. -/
def pkvsC7 : List (String × Json) :=
  [("type", .str "function_call"), ("name", .str "update_plan"), ("call_id", .str "c1"),
   ("arguments", .obj [("plan", .arr [.obj [("step", .str "a"), ("status", .str "pending")]])])]

/-- The C7 witness record. -/
def recC7plan : Json := .obj [("payload", .obj pkvsC7)]

/-- A default Entry used only to name computed entries in witnesses. -/
def entry0 : Entry :=
  { timestamp := .null, label := "", body_html := "", css_class := "", raw_type := .null, lineno := 0 }

/-- The Entry the converter produces for the C7 witness record. -/
def eC7 : Entry := ((convert_response_item dumps0 decFail recC7plan 1).toOption.getD none).getD entry0

/-- The plan board the C7 witness record's arguments yield. -/
def phC7 : String :=
  (render_plan_board (try_parse_json decFail
    (pyOr ((objGet? pkvsC7 "arguments").getD .null) (.str "")))).getD ""

set_option maxRecDepth 10000 in
/-- Witness for C7 at a concrete `update_plan` call with a one-step plan:
the produced Entry's body contains the plan board, and the board has one
list item for the one dict-shaped step. -/
theorem C7_function_call_rendering_witness :
    convert_response_item dumps0 decFail recC7plan 1 = .ok (some eC7)
    ∧ StrContains eC7.body_html phC7
    ∧ ([Json.obj [("step", .str "a"), ("status", .str "pending")]].filterMap planItem).length
        = ([Json.obj [("step", .str "a"), ("status", .str "pending")]] : List Json).countP
            (fun j => match j with | .obj _ => true | _ => false) :=
  ⟨rfl,
   (C7_function_call_rendering.1 dumps0 decFail [("payload", .obj pkvsC7)] pkvsC7 1 eC7
      rfl rfl rfl).1 phC7 rfl rfl,
   C7_function_call_rendering.2.2 [Json.obj [("step", .str "a"), ("status", .str "pending")]]⟩

/-- A list of line strings that survive `strip`/`splitlines` unchanged:
every line is non-empty and free of whitespace characters. -/
def NiceIds (ids : List String) : Prop :=
  ∀ id ∈ ids, id.data ≠ [] ∧ ∀ c ∈ id.data, c.isWhitespace = false

theorem splitNL_ne_nil : ∀ cs : List Char, splitNL cs ≠ [] := by
  intro cs
  cases cs with
  | nil => simp [splitNL]
  | cons c t =>
    simp only [splitNL]
    split <;> split <;> simp

theorem splitNL_no_nl : ∀ cs : List Char, '\n' ∉ cs → splitNL cs = [cs] := by
  intro cs h
  induction cs with
  | nil => rfl
  | cons c t ih =>
    have hc : ¬ c = '\n' := fun hc => h (by simp [hc])
    have ht := ih (fun hm => h (by simp [hm]))
    simp [splitNL, ht, hc]

theorem splitNL_append : ∀ cs rest : List Char, '\n' ∉ cs →
    splitNL (cs ++ '\n' :: rest) = cs :: splitNL rest := by
  intro cs rest h
  induction cs with
  | nil =>
    simp only [List.nil_append, splitNL]
    cases hr : splitNL rest with
    | nil => exact absurd hr (splitNL_ne_nil rest)
    | cons p ps => simp
  | cons c t ih =>
    have hc : ¬ c = '\n' := fun hc => h (by simp [hc])
    have ht : splitNL (t.append ('\n' :: rest)) = t :: splitNL rest :=
      ih (fun hm => h (by simp [hm]))
    simp only [List.cons_append, splitNL, ht, hc, if_false]

theorem joinNL_data_cons (s r : String) (t : List String) :
    (joinNL (s :: r :: t)).data = s.data ++ '\n' :: (joinNL (r :: t)).data := by
  show (s ++ "\n" ++ joinNL (r :: t)).data = _
  simp [String.data_append]

theorem nice_no_nl {id : String} (h : ∀ c ∈ id.data, c.isWhitespace = false) :
    '\n' ∉ id.data := by
  intro hm
  have := h '\n' hm
  simp [Char.isWhitespace] at this

theorem splitNL_joinNL : ∀ ids : List String, NiceIds ids → ids ≠ [] →
    splitNL (joinNL ids).data = ids.map String.data := by
  intro ids
  induction ids with
  | nil => intro _ h; exact absurd rfl h
  | cons s rest ih =>
    intro hn _
    cases rest with
    | nil =>
      have hs := hn s (by simp)
      simp [joinNL, splitNL_no_nl s.data (nice_no_nl hs.2)]
    | cons r t =>
      rw [joinNL_data_cons]
      rw [splitNL_append _ _ (nice_no_nl (hn s (by simp)).2)]
      rw [ih (fun id hid => hn id (by simp [hid])) (by simp)]
      simp

theorem joinNL_data_ne_nil : ∀ (s : String) (rest : List String), s.data ≠ [] →
    (joinNL (s :: rest)).data ≠ [] := by
  intro s rest hs
  cases rest with
  | nil => exact hs
  | cons r t =>
    rw [joinNL_data_cons]
    intro h
    exact hs (List.append_eq_nil.mp h).1

theorem pySplitlines_joinNL (ids : List String) (hn : NiceIds ids) (hne : ids ≠ []) :
    pySplitlines (joinNL ids) = ids := by
  obtain ⟨s, rest, rfl⟩ : ∃ s rest, ids = s :: rest := by
    cases ids with
    | nil => exact absurd rfl hne
    | cons a b => exact ⟨a, b, rfl⟩
  have hd : (joinNL (s :: rest)).data ≠ [] := joinNL_data_ne_nil s rest (hn s (by simp)).1
  have hsplit := splitNL_joinNL (s :: rest) hn hne
  have hlast : ((s :: rest).map String.data).getLast? ≠ some [] := by
    rw [List.getLast?_map]
    intro h
    obtain ⟨lid, hmem, hdata⟩ : ∃ lid, (s :: rest).getLast? = some lid ∧ lid.data = [] := by
      cases hg : (s :: rest).getLast? with
      | none => rw [hg] at h; simp at h
      | some lid => rw [hg] at h; simp at h; exact ⟨lid, rfl, h⟩
    have hmem' : lid ∈ (s :: rest).getLast? := by rw [hmem]; rfl
    obtain ⟨hne2, heq2⟩ := List.mem_getLast?_eq_getLast hmem'
    exact (hn lid (heq2 ▸ List.getLast_mem hne2)).1 hdata
  unfold pySplitlines
  split
  · rename_i heq
    exact absurd heq hd
  · rename_i cs heq
    simp only [hsplit]
    rw [if_neg (by simpa using hlast)]
    rw [List.map_map]
    have hid : String.mk ∘ String.data = id := funext fun x => rfl
    rw [hid, List.map_id]

theorem pyStrip_eq_self (s : String)
    (h1 : ∀ c, s.data.head? = some c → c.isWhitespace = false)
    (h2 : ∀ c, s.data.getLast? = some c → c.isWhitespace = false) : pyStrip s = s := by
  unfold pyStrip
  cases hd : s.data with
  | nil =>
    cases s with
    | mk l => simp only [] at hd; rw [hd]; rfl
  | cons a t =>
    have ha : a.isWhitespace = false := h1 a (by rw [hd]; rfl)
    rw [List.dropWhile_cons, ha]
    simp only [Bool.false_eq_true, if_false]
    cases hr : (a :: t).reverse with
    | nil => simp at hr
    | cons b rb =>
      have hb : (a :: t).getLast? = some b := by
        rw [← List.head?_reverse, hr]; rfl
      have hbw : b.isWhitespace = false := h2 b (by rw [hd]; exact hb)
      rw [List.dropWhile_cons, hbw]
      simp only [Bool.false_eq_true, if_false]
      rw [← hr, List.reverse_reverse, ← hd]

theorem revId_data (i : Nat) : (revId i).data = List.replicate (i + 1) 'r' := rfl

theorem revId_nice (i : Nat) :
    (revId i).data ≠ [] ∧ ∀ c ∈ (revId i).data, c.isWhitespace = false := by
  rw [revId_data]
  constructor
  · simp
  · intro c hc
    rw [List.eq_of_mem_replicate hc]
    decide

theorem revIds_nice (n : Nat) : NiceIds (revIds n) := by
  intro id hid
  simp only [revIds, List.mem_map] at hid
  obtain ⟨i, _, rfl⟩ := hid
  exact revId_nice i

theorem revIds_length (n : Nat) : (revIds n).length = n := by simp [revIds]

theorem joinNL_head? : ∀ (s : String) (rest : List String), s.data ≠ [] →
    (joinNL (s :: rest)).data.head? = s.data.head? := by
  intro s rest hs
  cases rest with
  | nil => rfl
  | cons r t =>
    rw [joinNL_data_cons]
    cases hd : s.data with
    | nil => exact absurd hd hs
    | cons a u => simp [hd]

theorem joinNL_getLast_aux : ∀ (ids : List String) (s : String), s.data ≠ [] →
    (joinNL (ids ++ [s])).data ≠ []
      ∧ (joinNL (ids ++ [s])).data.getLast? = s.data.getLast? := by
  intro ids
  induction ids with
  | nil => exact fun s hs => ⟨hs, rfl⟩
  | cons a ids ih =>
    intro s hs
    obtain ⟨ihne, ihlast⟩ := ih s hs
    have hcons : ∃ r t, ids ++ [s] = r :: t := by
      cases h : ids ++ [s] with
      | nil => exact absurd h (by simp)
      | cons r t => exact ⟨r, t, rfl⟩
    obtain ⟨r, t, hrt⟩ := hcons
    rw [List.cons_append, hrt, joinNL_data_cons, ← hrt]
    constructor
    · simp
    · rw [List.getLast?_append_of_ne_nil a.data (by simp)]
      rw [show ('\n' :: (joinNL (ids ++ [s])).data) = ['\n'] ++ (joinNL (ids ++ [s])).data from rfl]
      rw [List.getLast?_append_of_ne_nil ['\n'] ihne]
      exact ihlast

theorem revs_parse (n : Nat) (h : 1 ≤ n) :
    (pySplitlines (pyStrip (joinNL (revIds n)))).filter (fun r => r ≠ "") = revIds n := by
  obtain ⟨m, rfl⟩ : ∃ m, n = m + 1 := ⟨n - 1, by omega⟩
  have hids : revIds (m + 1) = (List.range m).map revId ++ [revId m] := by
    simp [revIds, List.range_succ]
  have hhead : revIds (m + 1) = revId 0 :: (List.range m).map (fun i => revId (i + 1)) := by
    simp [revIds, List.range_succ_eq_map, Function.comp]
  have hstrip : pyStrip (joinNL (revIds (m + 1))) = joinNL (revIds (m + 1)) := by
    apply pyStrip_eq_self
    · intro c hc
      rw [hhead, joinNL_head? _ _ (revId_nice 0).1] at hc
      rw [revId_data] at hc
      simp only [List.replicate, List.head?_cons, Option.some.injEq] at hc
      rw [← hc]
      decide
    · intro c hc
      rw [hids, (joinNL_getLast_aux ((List.range m).map revId) (revId m) (revId_nice m).1).2] at hc
      rw [revId_data] at hc
      have hne3 : List.replicate (m + 1) 'r' ≠ [] := by simp
      rw [List.getLast?_eq_getLast_of_ne_nil hne3] at hc
      have hcr : c = (List.replicate (m + 1) 'r').getLast hne3 := (Option.some.inj hc).symm
      rw [hcr, List.getLast_replicate_succ]
      decide
  rw [hstrip]
  rw [pySplitlines_joinNL (revIds (m + 1)) (revIds_nice (m + 1)) (by simp [revIds])]
  apply List.filter_eq_self.mpr
  intro id hid
  have hne2 : id ≠ "" := by
    intro h0
    exact ((revIds_nice (m + 1)) id hid).1 (by rw [h0])
  simpa using hne2

theorem run_git_ok {g : GitCmd → Option String} {c : GitCmd} {st : GitState}
    {x : String × GitState} (h : run_git_command g c st = .ok x) : g c = none := by
  cases hgc : g c with
  | none => rfl
  | some d2 => rw [run_git_command, hgc] at h; cases h

theorem run_git_err {g : GitCmd → Option String} {c : GitCmd} {st : GitState}
    {m : String} (h : run_git_command g c st = .error m) :
    ∃ d2, g c = some d2 ∧ m = gitErrMsg c d2 := by
  cases hgc : g c with
  | some d2 =>
    rw [run_git_command, hgc] at h
    exact ⟨d2, rfl, (Except.error.inj h).symm⟩
  | none =>
    rw [run_git_command, hgc] at h
    cases h

theorem run_git_none {g : GitCmd → Option String} (c : GitCmd) (st : GitState)
    (hg : g c = none) : run_git_command g c st = .ok (gitSem c st) := by
  rw [run_git_command, hg]

theorem commitLoop_ok (g : GitCmd → Option String) (hg : ∀ c, g c = none) :
    ∀ (us : List RunCodeUpload) (st : GitState) (tr : List GitCmd),
      ∃ st' tr', commitLoop g us st tr = (.ok st', tr')
        ∧ st'.commits = st.commits ++ us.map (fun u => (u.code, u.flags)) := by
  intro us
  induction us with
  | nil => intro st tr; exact ⟨st, tr, rfl, by simp⟩
  | cons u us ih =>
    intro st tr
    have hadd : run_git_command g addCmd ⟨(u.code, u.flags), st.staged, st.commits⟩
        = .ok ("", ⟨(u.code, u.flags), (u.code, u.flags), st.commits⟩) := by
      rw [run_git_command, hg]
      rfl
    have hcommit : run_git_command g (commitCmd u.index)
        ⟨(u.code, u.flags), (u.code, u.flags), st.commits⟩
        = .ok ("", ⟨(u.code, u.flags), (u.code, u.flags), st.commits ++ [(u.code, u.flags)]⟩) := by
      rw [run_git_command, hg]
      rfl
    obtain ⟨st', tr', hloop, hcommits⟩ := ih
      ⟨(u.code, u.flags), (u.code, u.flags), st.commits ++ [(u.code, u.flags)]⟩
      (tr ++ [addCmd, commitCmd u.index])
    refine ⟨st', tr', ?_, ?_⟩
    · simp only [commitLoop, hadd, hcommit]
      exact hloop
    · rw [hcommits]
      simp

theorem diffLoop_ok (g : GitCmd → Option String) (hg : ∀ c, g c = none) :
    ∀ (pairs : List (String × RunCodeUpload)) (st : GitState) (tr : List GitCmd),
      ∃ tr', diffLoop g pairs st tr
        = (.ok (pairs.map (fun p =>
            (pyStrip p.1 ++ " · upload " ++ toString p.2.index, showPatch p.1))), tr') := by
  intro pairs
  induction pairs with
  | nil => intro st tr; exact ⟨tr, rfl⟩
  | cons p rest ih =>
    intro st tr
    obtain ⟨rev, u⟩ := p
    have hparse : run_git_command g (revParseCmd rev) st = .ok (rev, st) := by
      rw [run_git_command, hg]
      rfl
    have hshow : run_git_command g (showCmd rev) st = .ok (showPatch rev, st) := by
      rw [run_git_command, hg]
      rfl
    obtain ⟨tr', hloop⟩ := ih st (tr ++ [revParseCmd rev, showCmd rev])
    refine ⟨tr', ?_⟩
    simp only [diffLoop, hparse, hshow, hloop, List.map_cons]

/-- The label part of the C1 invariant: each commit id is untouched by
`strip`. -/
theorem pyStrip_revId (i : Nat) : pyStrip (revId i) = revId i := by
  apply pyStrip_eq_self
  · intro c hc
    rw [revId_data] at hc
    simp only [List.replicate, List.head?_cons, Option.some.injEq] at hc
    rw [← hc]
    decide
  · intro c hc
    rw [revId_data] at hc
    have hne3 : List.replicate (i + 1) 'r' ≠ [] := by simp
    rw [List.getLast?_eq_getLast_of_ne_nil hne3] at hc
    have hcr : c = (List.replicate (i + 1) 'r').getLast hne3 := (Option.some.inj hc).symm
    rw [hcr, List.getLast_replicate_succ]
    decide

/-- C1: when every invocation of the external versioning tool succeeds,
the Revision Builder returns a diff list whose length equals the number
of snapshots, with the `i`-th diff labeled by the `i`-th commit id and
the `i`-th snapshot's sequence index; for the empty snapshot list it
returns an empty diff list with an empty invocation trace (the
versioning tool is never invoked). -/
theorem C1_revision_builder_correspondence :
    (∀ g, build_upload_git_history g [] = (.ok [], []))
    ∧ (∀ (g : GitCmd → Option String) (uploads : List RunCodeUpload), (∀ c, g c = none) →
        ∃ ds tr, build_upload_git_history g uploads = (.ok ds, tr)
          ∧ ds.length = uploads.length
          ∧ (∀ i (h1 : i < ds.length) (h2 : i < uploads.length),
              (ds.get ⟨i, h1⟩).1
                = revId i ++ " · upload " ++ toString ((uploads.get ⟨i, h2⟩).index))) := by
  constructor
  · intro g
    rfl
  · intro g uploads hg
    cases huploads : uploads with
    | nil => exact ⟨[], [], rfl, rfl, fun i h1 h2 => by simp at h1⟩
    | cons u0 us0 =>
    have hinit : run_git_command g ["init", "-q"] ⟨("", ""), ("", ""), []⟩
        = .ok ("", ⟨("", ""), ("", ""), []⟩) := by
      rw [run_git_command, hg]
      rfl
    obtain ⟨st2, tr2, hloop, hcommits⟩ :=
      commitLoop_ok g hg (u0 :: us0) ⟨("", ""), ("", ""), []⟩ [["init", "-q"]]
    have hn : st2.commits.length = (u0 :: us0).length := by
      rw [hcommits]; simp
    have hrevlist : run_git_command g revListCmd st2
        = .ok (joinNL (revIds st2.commits.length), st2) := by
      rw [run_git_command, hg]
      rfl
    have hrevs : (pySplitlines (pyStrip (joinNL (revIds st2.commits.length)))).filter
        (fun r => r ≠ "") = revIds st2.commits.length := by
      apply revs_parse
      rw [hn]
      simp
    obtain ⟨tr3, hdiff⟩ := diffLoop_ok g hg ((revIds st2.commits.length).zip (u0 :: us0)) st2
      (tr2 ++ [revListCmd])
    refine ⟨((revIds st2.commits.length).zip (u0 :: us0)).map (fun p =>
      (pyStrip p.1 ++ " · upload " ++ toString p.2.index, showPatch p.1)), tr3, ?_, ?_, ?_⟩
    · rw [build_upload_git_history]
      simp only [List.isEmpty_cons, Bool.false_eq_true, if_false, hinit, hloop, hrevlist, hrevs,
        hdiff]
    · rw [List.length_map, List.length_zip, revIds_length, hn]
      simp
    · intro i h1 h2
      simp only [List.get_eq_getElem, List.getElem_map, List.getElem_zip]
      have hi : i < st2.commits.length := by
        rw [List.length_map, List.length_zip, revIds_length] at h1
        omega
      have hi2 : i < (revIds st2.commits.length).length := by
        rw [revIds_length]
        exact hi
      have hrid : (revIds st2.commits.length).get ⟨i, hi2⟩ = revId i := by
        simp [revIds]
      rw [List.get_eq_getElem] at hrid
      simp only [hrid, pyStrip_revId]

/-- An oracle on which every versioning-tool invocation succeeds. -/
def gOk : GitCmd → Option String := fun _ => none

/-- Two concrete snapshots for the C1 witness. -/
def uW1 : RunCodeUpload := { index := 1, timestamp := .str "t1", lineno := 1, code := "a", flags := "f" }

/-- Second concrete snapshot for the C1 witness. -/
def uW2 : RunCodeUpload := { index := 2, timestamp := .str "t2", lineno := 2, code := "b", flags := "" }

/-- The diff list the Revision Builder produces on the C1 witness input. -/
def dsW : List (String × String) :=
  ((build_upload_git_history gOk [uW1, uW2]).1).toOption.getD []

/-- Witness for C1 at two concrete snapshots under an all-success oracle:
no invocation on the empty list, two diffs for two snapshots, labeled
with indices 1 and 2. -/
theorem C1_revision_builder_correspondence_witness :
    build_upload_git_history gOk [] = (.ok [], [])
    ∧ dsW.length = 2
    ∧ (dsW.get ⟨0, by decide⟩).1 = "r · upload 1"
    ∧ (dsW.get ⟨1, by decide⟩).1 = "rr · upload 2" := by
  obtain ⟨ds, tr, heq, hlen, hlab⟩ :=
    C1_revision_builder_correspondence.2 gOk [uW1, uW2] (fun c => rfl)
  have h1 : (build_upload_git_history gOk [uW1, uW2]).1 = .ok ds := by rw [heq]
  have hds : dsW = ds := by unfold dsW; rw [h1]; rfl
  refine ⟨C1_revision_builder_correspondence.1 gOk, ?_, rfl, rfl⟩
  rw [hds, hlen]
  rfl

theorem commitLoop_trace (g : GitCmd → Option String) :
    ∀ (us : List RunCodeUpload) (st : GitState) (tr : List GitCmd),
      (∀ st' tr', commitLoop g us st tr = (.ok st', tr') →
        (∀ c ∈ tr, g c = none) → ∀ c ∈ tr', g c = none)
      ∧ (∀ m tr', commitLoop g us st tr = (.error m, tr') →
          ∃ c d2, c ∈ tr' ∧ g c = some d2 ∧ m = gitErrMsg c d2) := by
  intro us
  induction us with
  | nil =>
    intro st tr
    constructor
    · intro st' tr' h hall
      simp only [commitLoop, Prod.mk.injEq] at h
      rw [← h.2]
      exact hall
    · intro m tr' h
      simp only [commitLoop, Prod.mk.injEq] at h
      exact absurd h.1 (by simp)
  | cons u us ih =>
    intro st tr
    constructor
    · intro st' tr' h hall
      simp only [commitLoop] at h
      cases hadd : run_git_command g addCmd ⟨(u.code, u.flags), st.staged, st.commits⟩ with
      | error m0 =>
        rw [hadd] at h
        simp only [Prod.mk.injEq] at h
        exact absurd h.1 (by simp)
      | ok x =>
        obtain ⟨out1, st2⟩ := x
        rw [hadd] at h
        dsimp only [] at h
        cases hcom : run_git_command g (commitCmd u.index) st2 with
        | error m0 =>
          rw [hcom] at h
          simp only [Prod.mk.injEq] at h
          exact absurd h.1 (by simp)
        | ok y =>
          obtain ⟨out2, st3⟩ := y
          rw [hcom] at h
          dsimp only [] at h
          refine (ih st3 (tr ++ [addCmd, commitCmd u.index])).1 st' tr' h ?_
          intro c hc
          rcases List.mem_append.mp hc with hc | hc
          · exact hall c hc
          · rcases List.mem_cons.mp hc with rfl | hc
            · exact run_git_ok hadd
            · rcases List.mem_cons.mp hc with rfl | hc
              · exact run_git_ok hcom
              · simp at hc
    · intro m tr' h
      simp only [commitLoop] at h
      cases hadd : run_git_command g addCmd ⟨(u.code, u.flags), st.staged, st.commits⟩ with
      | error m0 =>
        rw [hadd] at h
        simp only [Prod.mk.injEq] at h
        obtain ⟨d2, hg2, hm2⟩ := run_git_err hadd
        obtain ⟨h1, h2⟩ := h
        cases h1
        exact ⟨addCmd, d2, by rw [← h2]; simp, hg2, hm2⟩
      | ok x =>
        obtain ⟨out1, st2⟩ := x
        rw [hadd] at h
        dsimp only [] at h
        cases hcom : run_git_command g (commitCmd u.index) st2 with
        | error m0 =>
          rw [hcom] at h
          simp only [Prod.mk.injEq] at h
          obtain ⟨d2, hg2, hm2⟩ := run_git_err hcom
          obtain ⟨h1, h2⟩ := h
          cases h1
          exact ⟨commitCmd u.index, d2, by rw [← h2]; simp, hg2, hm2⟩
        | ok y =>
          obtain ⟨out2, st3⟩ := y
          rw [hcom] at h
          dsimp only [] at h
          exact (ih st3 (tr ++ [addCmd, commitCmd u.index])).2 m tr' h

theorem diffLoop_trace (g : GitCmd → Option String) :
    ∀ (pairs : List (String × RunCodeUpload)) (st : GitState) (tr : List GitCmd),
      (∀ ds tr', diffLoop g pairs st tr = (.ok ds, tr') →
        (∀ c ∈ tr, g c = none) → ∀ c ∈ tr', g c = none)
      ∧ (∀ m tr', diffLoop g pairs st tr = (.error m, tr') →
          ∃ c d2, c ∈ tr' ∧ g c = some d2 ∧ m = gitErrMsg c d2) := by
  intro pairs
  induction pairs with
  | nil =>
    intro st tr
    constructor
    · intro ds tr' h hall
      simp only [diffLoop, Prod.mk.injEq] at h
      rw [← h.2]
      exact hall
    · intro m tr' h
      simp only [diffLoop, Prod.mk.injEq] at h
      exact absurd h.1 (by simp)
  | cons p rest ih =>
    intro st tr
    obtain ⟨rev, u⟩ := p
    constructor
    · intro ds tr' h hall
      simp only [diffLoop] at h
      cases hrp : run_git_command g (revParseCmd rev) st with
      | error m0 =>
        rw [hrp] at h
        simp only [Prod.mk.injEq] at h
        exact absurd h.1 (by simp)
      | ok x =>
        obtain ⟨out1, st1⟩ := x
        rw [hrp] at h
        dsimp only [] at h
        cases hsh : run_git_command g (showCmd rev) st1 with
        | error m0 =>
          rw [hsh] at h
          simp only [Prod.mk.injEq] at h
          exact absurd h.1 (by simp)
        | ok y =>
          obtain ⟨out2, st2⟩ := y
          rw [hsh] at h
          dsimp only [] at h
          cases hrec : diffLoop g rest st2 (tr ++ [revParseCmd rev, showCmd rev]) with
          | mk res tr2 =>
            rw [hrec] at h
            cases res with
            | error m0 =>
              dsimp only [] at h
              simp only [Prod.mk.injEq] at h
              exact absurd h.1 (by simp)
            | ok ds2 =>
              dsimp only [] at h
              simp only [Prod.mk.injEq] at h
              obtain ⟨h1, h2⟩ := h
              rw [← h2]
              refine (ih st2 (tr ++ [revParseCmd rev, showCmd rev])).1 ds2 tr2 hrec ?_
              intro c hc
              rcases List.mem_append.mp hc with hc | hc
              · exact hall c hc
              · rcases List.mem_cons.mp hc with rfl | hc
                · exact run_git_ok hrp
                · rcases List.mem_cons.mp hc with rfl | hc
                  · exact run_git_ok hsh
                  · simp at hc
    · intro m tr' h
      simp only [diffLoop] at h
      cases hrp : run_git_command g (revParseCmd rev) st with
      | error m0 =>
        rw [hrp] at h
        simp only [Prod.mk.injEq] at h
        obtain ⟨d2, hg2, hm2⟩ := run_git_err hrp
        obtain ⟨h1, h2⟩ := h
        cases h1
        exact ⟨revParseCmd rev, d2, by rw [← h2]; simp, hg2, hm2⟩
      | ok x =>
        obtain ⟨out1, st1⟩ := x
        rw [hrp] at h
        dsimp only [] at h
        cases hsh : run_git_command g (showCmd rev) st1 with
        | error m0 =>
          rw [hsh] at h
          simp only [Prod.mk.injEq] at h
          obtain ⟨d2, hg2, hm2⟩ := run_git_err hsh
          obtain ⟨h1, h2⟩ := h
          cases h1
          exact ⟨showCmd rev, d2, by rw [← h2]; simp, hg2, hm2⟩
        | ok y =>
          obtain ⟨out2, st2⟩ := y
          rw [hsh] at h
          dsimp only [] at h
          cases hrec : diffLoop g rest st2 (tr ++ [revParseCmd rev, showCmd rev]) with
          | mk res tr2 =>
            rw [hrec] at h
            cases res with
            | ok ds2 =>
              dsimp only [] at h
              simp only [Prod.mk.injEq] at h
              exact absurd h.1 (by simp)
            | error m0 =>
              dsimp only [] at h
              simp only [Prod.mk.injEq] at h
              obtain ⟨h1, h2⟩ := h
              cases h1
              subst h2
              exact (ih st2 (tr ++ [revParseCmd rev, showCmd rev])).2 m tr2 hrec

/-- C8: the Revision Builder fails as one unit -- a successful build means
every invoked versioning-tool subcommand succeeded, and a failed build
carries exactly the failing subcommand's error (the subcommand and its
diagnostic text, `RuntimeError`-style), returning no partial diff list;
and whenever the builder fails on a non-empty snapshot list, the
upload-page assembler renders the failure as a visible error banner in
the produced document. -/
theorem C8_failure_single_unit_banner :
    (∀ (g : GitCmd → Option String) (uploads : List RunCodeUpload) ds tr,
        build_upload_git_history g uploads = (.ok ds, tr) → ∀ c ∈ tr, g c = none)
    ∧ (∀ (g : GitCmd → Option String) (uploads : List RunCodeUpload) m tr,
        build_upload_git_history g uploads = (.error m, tr) →
        ∃ c d2, c ∈ tr ∧ g c = some d2 ∧ m = gitErrMsg c d2)
    ∧ (∀ d (g : GitCmd → Option String) lines src uploads m page,
        extract_run_code_uploads d lines = .ok uploads →
        uploads ≠ [] →
        (build_upload_git_history g uploads).1 = .error m →
        build_run_code_page d g lines src = .ok page →
        StrContains page ("<div class=\x27error-banner\x27>Failed to build git history: "
          ++ htmlEscape m ++ "</div>")) := by
  have hogen : ∀ (g : GitCmd → Option String) (uploads : List RunCodeUpload) res tr,
      build_upload_git_history g uploads = (res, tr) →
      ((∀ ds, res = .ok ds → ∀ c ∈ tr, g c = none)
        ∧ (∀ m, res = .error m → ∃ c d2, c ∈ tr ∧ g c = some d2 ∧ m = gitErrMsg c d2)) := by
    intro g uploads res tr h
    rw [build_upload_git_history] at h
    by_cases hemp : uploads.isEmpty = true
    · rw [if_pos hemp] at h
      simp only [Prod.mk.injEq] at h
      obtain ⟨h1, h2⟩ := h
      constructor
      · intro ds _ c hc
        rw [← h2] at hc
        simp at hc
      · intro m hm
        rw [← h1] at hm
        cases hm
    · rw [if_neg hemp] at h
      dsimp only [] at h
      cases hinit : run_git_command g ["init", "-q"] ⟨("", ""), ("", ""), []⟩ with
      | error m0 =>
        rw [hinit] at h
        simp only [Prod.mk.injEq] at h
        obtain ⟨h1, h2⟩ := h
        constructor
        · intro ds hds
          rw [← h1] at hds
          cases hds
        · intro m hm
          rw [← h1] at hm
          cases hm
          obtain ⟨d2, hg2, hm2⟩ := run_git_err hinit
          exact ⟨["init", "-q"], d2, by rw [← h2]; simp, hg2, hm2⟩
      | ok x =>
        obtain ⟨out0, st1⟩ := x
        rw [hinit] at h
        dsimp only [] at h
        cases hcl : commitLoop g uploads st1 [["init", "-q"]] with
        | mk res2 tr2 =>
          rw [hcl] at h
          cases res2 with
          | error m0 =>
            dsimp only [] at h
            simp only [Prod.mk.injEq] at h
            obtain ⟨h1, h2⟩ := h
            constructor
            · intro ds hds
              rw [← h1] at hds
              cases hds
            · intro m hm
              rw [← h1] at hm
              cases hm
              rw [← h2]
              exact (commitLoop_trace g uploads st1 [["init", "-q"]]).2 m0 tr2 hcl
          | ok st2 =>
            dsimp only [] at h
            have htr2 : ∀ c ∈ tr2, g c = none := by
              refine (commitLoop_trace g uploads st1 [["init", "-q"]]).1 st2 tr2 hcl ?_
              intro c hc
              rcases List.mem_singleton.mp hc with rfl
              exact run_git_ok hinit
            cases hrl : run_git_command g revListCmd st2 with
            | error m0 =>
              rw [hrl] at h
              simp only [Prod.mk.injEq] at h
              obtain ⟨h1, h2⟩ := h
              constructor
              · intro ds hds
                rw [← h1] at hds
                cases hds
              · intro m hm
                rw [← h1] at hm
                cases hm
                obtain ⟨d2, hg2, hm2⟩ := run_git_err hrl
                exact ⟨revListCmd, d2, by rw [← h2]; simp, hg2, hm2⟩
            | ok y =>
              obtain ⟨out1, st3⟩ := y
              rw [hrl] at h
              dsimp only [] at h
              have htr3 : ∀ c ∈ tr2 ++ [revListCmd], g c = none := by
                intro c hc
                rcases List.mem_append.mp hc with hc | hc
                · exact htr2 c hc
                · rcases List.mem_singleton.mp hc with rfl
                  exact run_git_ok hrl
              constructor
              · intro ds hds
                rw [hds] at h
                exact (diffLoop_trace g _ st3 (tr2 ++ [revListCmd])).1 ds tr h htr3
              · intro m hm
                rw [hm] at h
                exact (diffLoop_trace g _ st3 (tr2 ++ [revListCmd])).2 m tr h
  refine ⟨?_, ?_, ?_⟩
  · intro g uploads ds tr h
    exact ((hogen g uploads (.ok ds) tr h).1) ds rfl
  · intro g uploads m tr h
    exact ((hogen g uploads (.error m) tr h).2) m rfl
  · intro d g lines src uploads m page hext hne herr hpage
    rw [build_run_code_page] at hpage
    simp only [bind, Except.bind, hext] at hpage
    cases hsum : render_upload_summary uploads with
    | error e0 => rw [hsum] at hpage; cases hpage
    | ok ss =>
      rw [hsum] at hpage
      dsimp only [] at hpage
      have hemp : uploads.isEmpty = false := by
        cases uploads with
        | nil => exact absurd rfl hne
        | cons a b => rfl
      rw [hemp] at hpage
      simp only [Bool.false_eq_true, if_false] at hpage
      rw [herr] at hpage
      dsimp only [] at hpage
      simp only [pure, Except.pure, Except.ok.injEq] at hpage
      refine ⟨"<!doctype html>\n<html lang=\"en\">\n<head>\n  <meta charset=\"utf-8\">\n"
        ++ "  <title>run_code uploads</title>\n  <style>\n" ++ BASE_CSS
        ++ "\n  </style>\n</head>\n"
        ++ "<body>\n  <header>\n    <div class=\"header-top\">\n      <h1>run_code uploads</h1>\n"
        ++ "      <div class=\"header-actions\">\n"
        ++ "        <a href=\"/index.html\" class=\"nav-button secondary\">Back to entries</a>\n"
        ++ "      </div>\n    </div>\n    <p>Source: " ++ htmlEscape src ++ " · "
        ++ toString uploads.length ++ " uploads</p>\n  </header>\n  <div class=\"container\">\n    "
        ++ ss ++ "\n    " ++ "<section class=\x27panel\x27>" ++ "<h2>Commit diffs</h2>",
        "</section>" ++ "\n  </div>\n</body>\n</html>\n", ?_⟩
      rw [← hpage, diffsErrorSection]
      simp only [String.append_assoc]

/-- An oracle on which exactly the `git add` invocation fails. -/
def gFailAdd : GitCmd → Option String :=
  fun c => if c = addCmd then some "boom" else none

/-- The single snapshot the extractor finds in the C8 witness log. -/
def usC8 : List RunCodeUpload :=
  [{ index := 1, timestamp := .str "T", lineno := 1, code := "abc", flags := "" }]

/-- The failure message of the C8 witness build. -/
def mW : String := "git add code.c flags.txt: boom"

/-- The invocation trace of the C8 witness build. -/
def trW : List GitCmd := (build_upload_git_history gFailAdd usC8).2

/-- The document the upload-page assembler produces in the C8 witness. -/
def pageW : String :=
  (build_run_code_page decC5 gFailAdd ["U"] "log").toOption.getD ""

set_option maxRecDepth 10000 in
/-- Witness for C8 at a concrete one-snapshot log whose `git add` fails:
the build error carries the failing subcommand and diagnostic, and the
produced page contains the error banner. -/
theorem C8_failure_single_unit_banner_witness :
    (∃ c d2, c ∈ trW ∧ gFailAdd c = some d2 ∧ mW = gitErrMsg c d2)
    ∧ StrContains pageW
        ("<div class=\x27error-banner\x27>Failed to build git history: "
          ++ htmlEscape mW ++ "</div>") := by
  constructor
  · exact C8_failure_single_unit_banner.2.1 gFailAdd usC8 mW trW rfl
  · exact C8_failure_single_unit_banner.2.2 decC5 gFailAdd ["U"] "log" usC8 mW pageW rfl
      (by simp [usC8]) rfl rfl
